import Mathlib

/-!
# CANopen frame model and SDO download

A shallow embedding of `frame.go` (package `canopen`) and `sdo/download.go`
(package `sdo`).

Conventions of the embedding:

* Go's unsigned machine integers (`uint8`, `uint16`, `uint32`) are natural numbers;
  a conversion to a narrower type is an explicit `% 2 ^ w`.
* Go's `int32(len(data))` is an `Int`, wrapped into the signed 32-bit range.
* Go's slices `[]uint8` are `List Nat`; the fixed array `[8]uint8` of a CAN frame is a
  function `Fin 8 → Nat`.
* A run-time panic (slice or index out of range) and `log.Fatalf` are explicit results.
* The bus is the sequence of results of the successive request/response exchanges;
  `Do` returns the frames it has sent together with its outcome.
* A request frame goes on the bus as its CAN frame (`CANFrame`, as in `Marshal`), so an
  exchange takes place only for a frame on which `CANFrame` is defined.  `Do` does not
  test it; the theorems on downloads whose exchanges validate state it for the initiate
  frame.
-/

/-! ## Package `can` (the CAN transport, `github.com/brutella/can`) -/

namespace can

/-- Mask of the 11 identifier bits of a standard frame format CAN identifier. -/
def MaskIDSff : Nat := 0x7FF

/-- Remote-transmission-request flag of a CAN identifier. -/
def MaskRtr : Nat := 0x40000000

/-- A raw CAN frame: a 32-bit identifier, a length, flags and a fixed buffer of 8 data bytes. -/
structure Frame where
  ID : Nat
  Length : Nat
  Flags : Nat
  Res0 : Nat
  Res1 : Nat
  Data : Fin 8 → Nat

end can

/-! ## Package `canopen`: `frame.go` -/

namespace canopen

/-- Modelled from the spec: the constant `MaskCobID` is declared outside `frame.go`;
"`cobId` is always masked to 11 bits on construction" (the source comments
"only use first 11 bits"). -/
def MaskCobID : Nat := 0x7FF

/-- Modelled from the spec: the constant `MaskNodeID` is declared outside `frame.go`;
"`nodeId()`: COB-ID bits 0–6". -/
def MaskNodeID : Nat := 0x7F

/-- Modelled from the spec: the constant `MaskMessageType` is declared outside `frame.go`;
"`messageType()`: COB-ID bits 7–10". -/
def MaskMessageType : Nat := 0x780

/-- A Frame represents a CANopen frame. -/
structure Frame where
  CobID : Nat
  Rtr : Bool
  Data : List Nat
deriving DecidableEq, Repr

/-- CANopenFrame returns a CANopen frame from a CAN frame: `frm.Data[:]` is the whole
fixed buffer of 8 bytes. -/
def CANopenFrame (frm : can.Frame) : Frame :=
  { CobID := (frm.ID &&& can.MaskIDSff) % 2 ^ 16
    Rtr := decide (frm.ID &&& can.MaskRtr = can.MaskRtr)
    Data := List.ofFn frm.Data }

/-- NewFrame returns a frame with an id and data bytes. -/
def NewFrame (id : Nat) (data : List Nat) : Frame :=
  { CobID := id &&& MaskCobID
    Rtr := false
    Data := data }

/-- MessageType returns the message type. -/
def Frame.MessageType (frm : Frame) : Nat :=
  frm.CobID &&& MaskMessageType

/-- The function `strconv.FormatUint(x, 16)` of the Go standard library: the digits of `x`
in base 16, in lower case, without leading zeros. -/
def FormatUint16 (x : Nat) : String :=
  String.mk (Nat.toDigits 16 x)

/-- Dump frame in hex format. -/
def Frame.Dump (frm : Frame) : List String :=
  let hs := [FormatUint16 frm.CobID]
  hs ++ frm.Data.map (fun d =>
    let sn := FormatUint16 d
    if d < 9 then "0" ++ sn else sn)

/-- NodeID returns the node id. -/
def Frame.NodeID (frm : Frame) : Nat :=
  (frm.CobID &&& MaskNodeID) % 2 ^ 8

/-- CANFrame returns a CAN frame representing the CANopen frame.  The slice expressions
`data[:n]` and `frm.Data[:n]` with `n = len(frm.Data)` panic when `n > 8`: the result is
then `none`.  Otherwise `copy` fills the first `n` bytes of the zeroed buffer. -/
def Frame.CANFrame (frm : Frame) : Option can.Frame :=
  let n := frm.Data.length
  if n ≤ 8 then
    let id := frm.CobID % 2 ^ 32
    let id := if frm.Rtr = true then id ||| can.MaskRtr else id
    some
      { ID := id
        Length := n % 2 ^ 8
        Flags := 0
        Res0 := 0
        Res1 := 0
        Data := fun i => frm.Data.getD i.val 0 }
  else
    none

/-- Modelled from the spec: the type `ObjectIndex` is declared outside the sources at hand;
"a 16-bit `index` (transmitted low-byte-first) and an 8-bit `subIndex`".  The two bytes of
the index are the fields `B0` and `B1` that `getFrame` reads. -/
structure Index where
  B0 : Nat
  B1 : Nat
deriving DecidableEq, Repr

/-- Modelled from the spec: see `Index`. -/
structure ObjectIndex where
  Index : Index
  SubIndex : Nat
deriving DecidableEq, Repr

/-- Modelled from the spec: the transaction engine (`Client.Do`) is outside the sources at
hand; "`execute(request, timeout) -> Response | TimeoutError | TransportError`".  These
are its two failures. -/
inductive ClientError where
  | timeout
  | transport (code : Nat)
deriving DecidableEq, Repr

/-- Modelled from the spec: the result of one exchange of the transaction engine, either
the response frame or a failure. -/
abbrev Exchange := Except ClientError Frame

/-- Modelled from the spec: the bus as seen through the transaction engine, which does one
exchange at a time: `bus k` is the result of the `k`-th exchange (counted from 0). -/
abbrev Bus := Nat → Exchange

end canopen

/-! ## Package `sdo`: `download.go` -/

namespace sdo

open canopen

def ClientIntiateDownload : Nat := 0x20

def ClientSegmentDownload : Nat := 0x00

def ServerInitiateDownload : Nat := 0x60

def ServerSegmentDownload : Nat := 0x20

/-- Modelled from the spec: the constant `TransferExpedited` is declared outside
`download.go`; the expedited bit, `0x02` in the spec's Example 1. -/
def TransferExpedited : Nat := 0x2

/-- Modelled from the spec: the constant `TransferSizeIndicated` is declared outside
`download.go`; the size-indicated bit of the initiate command byte. -/
def TransferSizeIndicated : Nat := 0x1

/-- Modelled from the spec: the constant `TransferMaskSize` is declared outside
`download.go`; the field of the initiate command byte holding "unused-count << 2". -/
def TransferMaskSize : Nat := 0xC

/-- Modelled from the spec: the constant `TransferMaskCommandSpecifier` is declared outside
`download.go`; the "3-bit command specifier", the three high bits of the command byte. -/
def TransferMaskCommandSpecifier : Nat := 0xE0

/-- Modelled from the spec: the constant `TransferSegmentToggle` is declared outside
`download.go`; the toggle bit of a segment command byte. -/
def TransferSegmentToggle : Nat := 0x10

/-- Conversion of an integer to Go's `int32` (two's complement wrap-around). -/
def int32 (n : Int) : Int := (n + 2 ^ 31) % 2 ^ 32 - 2 ^ 31

/-- Conversion of an integer to Go's `byte`. -/
def byte (n : Int) : Nat := (n % 256).toNat

/-- The four bytes `binary.Write(&buf, binary.LittleEndian, size)` writes for an `int32`. -/
def littleEndian32 (size : Int) : List Nat :=
  let u := (size % 2 ^ 32).toNat
  [u % 256, u / 2 ^ 8 % 256, u / 2 ^ 16 % 256, u / 2 ^ 24 % 256]

/-- Download represents a SDO download process to write data to a CANopen device. -/
structure Download where
  ObjectIndex : ObjectIndex
  Data : List Nat
  RequestCobID : Nat
  ResponseCobID : Nat
deriving DecidableEq, Repr

/-- The size field of the initiate command byte: Go's
`((4 - int(n)) << 2) & TransferMaskSize` on the two's complement `int`. -/
def sizeField (n : Nat) : Nat :=
  (((4 + 2 ^ 64 - n) % 2 ^ 64) <<< 2) % 2 ^ 64 &&& TransferMaskSize

/-- The method `getFrame`: the initiate frame.  The pointer argument `e` is updated, so
its final value is returned with the frame; `s` is only read.  `binary.Write` of an
`int32` into a buffer does not fail, so the error result is always `nil`. -/
def Download.getFrame (download : Download) (e s : Nat) : Nat × Frame :=
  let size := int32 download.Data.length
  let r : Nat × Nat × List Nat :=
    if size > 4 then (0, 0, littleEndian32 size) else (e, byte size, download.Data)
  let e := r.1
  let n := r.2.1
  let data := r.2.2
  let bytes := [(ClientIntiateDownload ||| e ||| s ||| sizeField n) % 256,
    download.ObjectIndex.Index.B0, download.ObjectIndex.Index.B1,
    download.ObjectIndex.SubIndex]
  let data := data ++ List.replicate (4 - data.length) 0
  (e, { CobID := download.RequestCobID, Rtr := false, Data := bytes ++ data })

/-- The frame of `GetRequest`: `getFrame` called with the expedited and the size-indicated
bits. -/
def Download.GetRequest (download : Download) : Frame :=
  (download.getFrame TransferExpedited TransferSizeIndicated).2

/-- Modelled from the spec: the helper `splitN` is outside the sources at hand; "the client
splits the payload into consecutive chunks of at most 7 bytes each", "chunk splitting
always advances by 7 bytes per segment regardless of remaining length; the final chunk may
be shorter than 7 bytes".  The step is `n + 1` so that the recursion is structural on the
fuel; `Do` calls it with 7. -/
def splitNAux {α : Type} (n : Nat) : Nat → List α → List (List α)
  | 0, _ => []
  | _, [] => []
  | fuel + 1, x :: xs =>
    List.take (n + 1) (x :: xs) :: splitNAux n fuel (List.drop (n + 1) (x :: xs))

/-- Modelled from the spec: see `splitNAux`; `splitN b n` cuts `b` into consecutive chunks
of `n` elements, the last one possibly shorter (and gives no chunk when `n = 0`). -/
def splitN {α : Type} (b : List α) (n : Nat) : List (List α) :=
  match n with
  | 0 => []
  | m + 1 => splitNAux m b.length b

/-- Why `Do` failed, for the errors it returns to its caller. -/
inductive Error where
  | client (err : ClientError)
  | serverAborted
  | invalidScs (scs : Nat)
deriving DecidableEq, Repr

/-- How a call of `Do` ends: it returns `nil`, it returns an error, `log.Fatalf`
terminates the process, or reading `frame.Data[0]` panics on an empty response. -/
inductive Outcome where
  | success
  | failure (err : Error)
  | fatal (scs : Nat)
  | panic
deriving DecidableEq, Repr

/-- The command byte `Do` builds for the chunk of index `i`, with `t` the toggle counter
and `len` the number of chunks (`len(junks)`). -/
def segmentCommand (len i t : Nat) : Nat :=
  let cmd := ClientSegmentDownload
  let cmd := if t % 2 = 1 then cmd ||| TransferSegmentToggle else cmd
  if i + 1 = len then cmd ||| 0x1 else cmd

/-- The frame `Do` builds for the chunk `junk` of index `i`. -/
def segmentFrame (download : Download) (len i t : Nat) (junk : List Nat) : Frame :=
  { CobID := download.RequestCobID, Rtr := false, Data := segmentCommand len i t :: junk }

/-- The command specifier `Do` reads in the result of an exchange: `frame.Data[0]` masked
with `TransferMaskCommandSpecifier`; there is none when the exchange failed or when the
response has no data byte. -/
def responseSpecifier : Exchange → Option Nat
  | Except.error _ => none
  | Except.ok resp =>
    match resp.Data with
    | [] => none
    | b0 :: _ => some (b0 &&& TransferMaskCommandSpecifier)

/-- What `Do` reads of the result of an exchange: the error of the transaction engine, or
the command specifier of the response (none when the response has no data byte). -/
def exchangeView : Exchange → Except ClientError (Option Nat)
  | Except.error err => Except.error err
  | Except.ok resp => Except.ok (responseSpecifier (Except.ok resp))

/-- The loop of `Do` over the chunks still to send.  `len` is `len(junks)`, `i` the index
of the next chunk, `t` the toggle counter, `k` the number of exchanges done so far.  The
result is the list of the frames sent and the outcome of the loop (`success` when it runs
to its end and `Do` returns `nil`). -/
def segmentLoop (download : Download) (bus : Bus) (len : Nat) :
    List (List Nat) → Nat → Nat → Nat → List Frame × Outcome
  | [], _, _, _ => ([], Outcome.success)
  | junk :: rest, i, t, k =>
    let frame := segmentFrame download len i t junk
    let t := t + 1
    match bus k with
    | Except.error err => ([frame], Outcome.failure (Error.client err))
    | Except.ok resp =>
      match resp.Data with
      | [] => ([frame], Outcome.panic)
      | b0 :: _ =>
        let scs := b0 &&& TransferMaskCommandSpecifier
        if scs ≠ ServerSegmentDownload then
          ([frame], Outcome.failure (Error.invalidScs scs))
        else
          let r := segmentLoop download bus len rest (i + 1) t (k + 1)
          (frame :: r.1, r.2)

/-- The segment frames for the chunks `junks`, from index `i` and toggle counter `t` on:
what the loop of `Do` sends when it runs to its end. -/
def segmentFrames (download : Download) (len : Nat) : List (List Nat) → Nat → Nat → List Frame
  | [], _, _ => []
  | junk :: rest, i, t =>
    segmentFrame download len i t junk :: segmentFrames download len rest (i + 1) (t + 1)

/-- The method `Do`: the whole download transaction.  `TransferAbort`, the abort command
specifier, is a constant declared outside `download.go` and is taken as a parameter.  The
result is the list of the frames sent on the bus, in order, and the outcome. -/
def Download.Do (TransferAbort : Nat) (download : Download) (bus : Bus) :
    List Frame × Outcome :=
  let r := download.getFrame TransferExpedited TransferSizeIndicated
  let e := r.1
  let frame := r.2
  match bus 0 with
  | Except.error err => ([frame], Outcome.failure (Error.client err))
  | Except.ok resp =>
    match resp.Data with
    | [] => ([frame], Outcome.panic)
    | b0 :: _ =>
      let scs := b0 &&& TransferMaskCommandSpecifier
      if scs = ServerInitiateDownload then
        if e = 0 then
          let junks := splitN download.Data 7
          let r := segmentLoop download bus junks.length junks 0 0 1
          (frame :: r.1, r.2)
        else
          ([frame], Outcome.success)
      else if scs = TransferAbort then
        ([frame], Outcome.failure Error.serverAborted)
      else
        ([frame], Outcome.fatal scs)

end sdo

/-! ## Example inputs -/

namespace sdo

open canopen

/-- A bus on which the server answers every request with the same frame, whose command
byte is `b0`. -/
def constBus (b0 : Nat) : Bus :=
  fun _ => Except.ok { CobID := 0x581, Rtr := false, Data := [b0, 0, 0, 0, 0, 0, 0, 0] }

/-- A bus on which the server acknowledges every request: `0x60` for the initiate frame
(exchange 0) and `0x20` for every segment. -/
def ackBus : Bus :=
  fun k => if k = 0 then constBus 0x60 k else constBus 0x20 k

/-- A bus that acknowledges like `ackBus`, with other bytes around the command specifier:
the answer to the initiate frame has the command byte `0x7F`, the answers to the segments
have the command byte `0x3F` (toggle bit and low bits set), the Rtr flag and other data. -/
def noisyAckBus : Bus :=
  fun k =>
    if k = 0 then
      Except.ok { CobID := 0x581, Rtr := false, Data := [0x7F, 1, 2, 3, 4, 5, 6, 7] }
    else
      Except.ok { CobID := 0x581, Rtr := true, Data := [0x3F, 9, 9, 9, 9, 9, 9, 9] }

/-- A bus that acknowledges like `ackBus`, except that exchange 2 (the second segment)
times out. -/
def timeoutBus : Bus :=
  fun k => if k = 2 then Except.error ClientError.timeout else ackBus k

/-- A download of the two bytes `01 02` to the object `0x6040`, sub-index 1. -/
def download2 : Download :=
  { ObjectIndex := { Index := { B0 := 0x40, B1 := 0x60 }, SubIndex := 1 }
    Data := [0x01, 0x02]
    RequestCobID := 0x601
    ResponseCobID := 0x581 }

/-- A download of the ten bytes `00 01 .. 09` with the 16-bit request COB-ID `0xFE01`,
which is wider than 11 bits. -/
def downloadWide : Download :=
  { ObjectIndex := { Index := { B0 := 0x40, B1 := 0x60 }, SubIndex := 1 }
    Data := [0, 1, 2, 3, 4, 5, 6, 7, 8, 9]
    RequestCobID := 0xFE01
    ResponseCobID := 0x581 }

/-- A download of the ten bytes `00 01 .. 09` to the object `0x6040`, sub-index 1. -/
def download10 : Download :=
  { ObjectIndex := { Index := { B0 := 0x40, B1 := 0x60 }, SubIndex := 1 }
    Data := [0, 1, 2, 3, 4, 5, 6, 7, 8, 9]
    RequestCobID := 0x601
    ResponseCobID := 0x581 }

end sdo

/-! ## Lemmas on the frame model -/

namespace canopen

/-- Reading a list of at most 8 bytes at the 8 indices of the fixed buffer, with 0 outside
the list, is the list followed by zeros up to 8 bytes. -/
theorem ofFn_getD_eq_pad (l : List Nat) (h : l.length ≤ 8) :
    List.ofFn (fun i : Fin 8 => l.getD i.val 0) = l ++ List.replicate (8 - l.length) 0 := by
  apply List.ext_getElem
  · simp; omega
  · intro n h1 h2
    simp only [List.getElem_ofFn, List.getD_eq_getElem?_getD]
    by_cases hn : n < l.length
    · simp [List.getElem_append_left, hn]
    · rw [List.getElem?_eq_none (Nat.le_of_not_lt hn),
        List.getElem_append_right (Nat.le_of_not_lt hn)]
      simp

/-- An 11-bit identifier has no RTR flag. -/
theorem and_MaskRtr_of_lt (c : Nat) (h : c < 2 ^ 11) : c &&& can.MaskRtr = 0 := by
  apply Nat.eq_of_testBit_eq
  intro i
  have e : can.MaskRtr = 2 ^ 30 := by decide
  rw [e, Nat.testBit_and, Nat.testBit_two_pow, Nat.zero_testBit]
  by_cases hi : 30 = i
  · subst hi
    rw [Nat.testBit_lt_two_pow (lt_trans h (by norm_num))]
    rfl
  · simp [hi]

/-- An 11-bit identifier is unchanged by the identifier mask. -/
theorem and_MaskIDSff_of_lt (c : Nat) (h : c < 2 ^ 11) : c &&& can.MaskIDSff = c := by
  have e : can.MaskIDSff = 2 ^ 11 - 1 := by decide
  rw [e]
  exact Nat.and_pow_two_sub_one_of_lt_two_pow h

/-- The RTR flag test of `CANopenFrame` reads bit 30 of the identifier. -/
theorem and_MaskRtr_eq_iff_testBit (x : Nat) :
    x &&& can.MaskRtr = can.MaskRtr ↔ x.testBit 30 = true := by
  have e : can.MaskRtr = 2 ^ 30 := by decide
  rw [e]
  constructor
  · intro h
    have h1 : (x &&& 2 ^ 30).testBit 30 = (2 ^ 30).testBit 30 := by rw [h]
    rw [Nat.testBit_and, Nat.testBit_two_pow_self, Bool.and_true] at h1
    exact h1
  · intro h
    apply Nat.eq_of_testBit_eq
    intro i
    rw [Nat.testBit_and, Nat.testBit_two_pow]
    by_cases hi : 30 = i
    · subst hi
      simp [h]
    · simp [hi]

/-- The CAN frame of a CANopen frame of at most 8 data bytes. -/
theorem CANFrame_of_le (f : Frame) (hl : f.Data.length ≤ 8) :
    f.CANFrame = some
      { ID := if f.Rtr = true then f.CobID % 2 ^ 32 ||| can.MaskRtr else f.CobID % 2 ^ 32
        Length := f.Data.length
        Flags := 0
        Res0 := 0
        Res1 := 0
        Data := fun i => f.Data.getD i.val 0 } := by
  have h8 : f.Data.length % 2 ^ 8 = f.Data.length := Nat.mod_eq_of_lt (by omega)
  simp only [Frame.CANFrame, hl, if_true, h8]

end canopen

/-! ## Lemmas on the initiate frame -/

namespace sdo

open canopen

theorem int32_of_lt (n : Nat) (h : n < 2 ^ 31) : int32 (n : Int) = n := by
  unfold int32
  omega

theorem littleEndian32_length (z : Int) : (littleEndian32 z).length = 4 := rfl

/-- The frame `getFrame` builds on its expedited branch. -/
theorem getFrame_of_le_four (d : Download) (e s : Nat) (h : d.Data.length ≤ 4) :
    d.getFrame e s = (e,
      { CobID := d.RequestCobID, Rtr := false,
        Data := [(ClientIntiateDownload ||| e ||| s ||| sizeField d.Data.length) % 256,
          d.ObjectIndex.Index.B0, d.ObjectIndex.Index.B1, d.ObjectIndex.SubIndex]
          ++ (d.Data ++ List.replicate (4 - d.Data.length) 0) }) := by
  have h1 : int32 (d.Data.length : Int) = d.Data.length := int32_of_lt _ (by omega)
  have h2 : ¬ ((d.Data.length : Int) > 4) := by omega
  have h3 : byte (d.Data.length : Int) = d.Data.length := by
    unfold byte; omega
  simp only [Download.getFrame, h1, h2, h3, if_false]

/-- The frame `getFrame` builds on its segmented branch, for a length in the `int32`
range. -/
theorem getFrame_of_four_lt (d : Download) (e s : Nat) (h : 4 < d.Data.length)
    (h31 : d.Data.length < 2 ^ 31) :
    d.getFrame e s = (0,
      { CobID := d.RequestCobID, Rtr := false,
        Data := [(ClientIntiateDownload ||| 0 ||| s ||| sizeField 0) % 256,
          d.ObjectIndex.Index.B0, d.ObjectIndex.Index.B1, d.ObjectIndex.SubIndex]
          ++ littleEndian32 d.Data.length }) := by
  have h1 : int32 (d.Data.length : Int) = d.Data.length := int32_of_lt _ h31
  have h2 : ((d.Data.length : Int) > 4) := by omega
  simp only [Download.getFrame, h1, h2, if_true, littleEndian32_length]
  simp

/-- The frame `getFrame` builds for a payload of `2 ^ 31` bytes, whose length wraps to a
negative `int32`: the payload is appended whole. -/
theorem getFrame_length_of_wrapped (d : Download) (e s : Nat) (h : d.Data.length = 2 ^ 31) :
    (d.getFrame e s).1 = e ∧ (d.getFrame e s).2.Data.length = 2 ^ 31 + 4 := by
  have h1 : int32 (d.Data.length : Int) = - 2 ^ 31 := by
    unfold int32
    omega
  have h2 : ¬ ((- 2 ^ 31 : Int) > 4) := by omega
  simp only [Download.getFrame, h1, h2, if_false, List.length_append, List.length_cons,
    List.length_nil, List.length_replicate, true_and]
  omega

/-- The command byte of the expedited initiate frame, for the bits `Do` and `GetRequest`
pass. -/
theorem command_expedited (n : Nat) (h : n ≤ 4) :
    (ClientIntiateDownload ||| TransferExpedited ||| TransferSizeIndicated ||| sizeField n) % 256
      = 0x20 ||| 0x02 ||| 0x01 ||| (((4 - n) <<< 2) &&& 0x0C) := by
  interval_cases n <;> decide

theorem command_expedited_fields (n : Nat) (h : n ≤ 4) :
    (0x20 ||| 0x02 ||| 0x01 ||| (((4 - n) <<< 2) &&& 0x0C)) &&& 0x02 = 0x02 ∧
    ((0x20 ||| 0x02 ||| 0x01 ||| (((4 - n) <<< 2) &&& 0x0C)) &&& 0x0C) >>> 2 = (4 - n) % 4 := by
  interval_cases n <;> decide

/-- The initiate frame of an expedited download. -/
theorem GetRequest_of_le_four (d : Download) (h : d.Data.length ≤ 4) :
    d.GetRequest =
      { CobID := d.RequestCobID, Rtr := false,
        Data := (0x20 ||| 0x02 ||| 0x01 ||| (((4 - d.Data.length) <<< 2) &&& 0x0C)) ::
          d.ObjectIndex.Index.B0 :: d.ObjectIndex.Index.B1 :: d.ObjectIndex.SubIndex ::
          (d.Data ++ List.replicate (4 - d.Data.length) 0) } := by
  rw [Download.GetRequest, getFrame_of_le_four d _ _ h, command_expedited _ h]
  rfl

/-- The initiate frame of a segmented download, for a length in the `int32` range. -/
theorem GetRequest_of_four_lt (d : Download) (h : 4 < d.Data.length)
    (h31 : d.Data.length < 2 ^ 31) :
    d.GetRequest =
      { CobID := d.RequestCobID, Rtr := false,
        Data := 0x21 ::
          d.ObjectIndex.Index.B0 :: d.ObjectIndex.Index.B1 :: d.ObjectIndex.SubIndex ::
          littleEndian32 d.Data.length } := by
  rw [Download.GetRequest, getFrame_of_four_lt d _ _ h h31]
  rfl

/-- The four bytes of `littleEndian32` are bytes and decode to the length. -/
theorem littleEndian32_decode (n : Nat) (h : n < 2 ^ 31) :
    ∃ s0 s1 s2 s3, littleEndian32 n = [s0, s1, s2, s3] ∧
      s0 < 256 ∧ s1 < 256 ∧ s2 < 256 ∧ s3 < 256 ∧
      s0 + 2 ^ 8 * s1 + 2 ^ 16 * s2 + 2 ^ 24 * s3 = n := by
  have hu : ((n : Int) % 2 ^ 32).toNat = n := by omega
  refine ⟨_, _, _, _, rfl, ?_, ?_, ?_, ?_, ?_⟩ <;> simp only [hu] <;> omega

end sdo

/-! ## Lemmas on the transaction -/

namespace sdo

open canopen

/-- The value `getFrame` leaves in `e`: 0 on the segmented branch, unchanged otherwise. -/
theorem getFrame_fst (d : Download) (e s : Nat) :
    (d.getFrame e s).1 = if int32 d.Data.length > 4 then 0 else e := by
  by_cases h : int32 d.Data.length > 4
  · simp only [Download.getFrame, h, if_true]
  · simp only [Download.getFrame, h, if_false]

/-- After `getFrame`, the test `e == 0` of `Do` holds exactly when the length, as an `int32`, is above 4. -/
theorem getFrame_fst_eq_zero_iff (d : Download) :
    (d.getFrame TransferExpedited TransferSizeIndicated).1 = 0 ↔ int32 d.Data.length > 4 := by
  rw [getFrame_fst]
  by_cases h4 : int32 d.Data.length > 4
  · rw [if_pos h4]
    exact ⟨fun _ => h4, fun _ => rfl⟩
  · rw [if_neg h4]
    exact ⟨fun h => absurd h (by decide), fun h => absurd h h4⟩

/-- The result of `Do` when the initiate exchange returns a response with a data byte: the `switch` on its command specifier, then the segment loop. -/
theorem Do_of_responseSpecifier (abort : Nat) (d : Download) (bus : Bus) (scs : Nat)
    (h : responseSpecifier (bus 0) = some scs) :
    d.Do abort bus =
      if scs = ServerInitiateDownload then
        if int32 d.Data.length > 4 then
          (d.GetRequest ::
              (segmentLoop d bus (splitN d.Data 7).length (splitN d.Data 7) 0 0 1).1,
            (segmentLoop d bus (splitN d.Data 7).length (splitN d.Data 7) 0 0 1).2)
        else ([d.GetRequest], Outcome.success)
      else if scs = abort then ([d.GetRequest], Outcome.failure Error.serverAborted)
      else ([d.GetRequest], Outcome.fatal scs) := by
  have he := getFrame_fst_eq_zero_iff d
  cases hb : bus 0 with
  | error err => rw [hb] at h; exact absurd h (by simp [responseSpecifier])
  | ok resp =>
    cases hd : resp.Data with
    | nil => rw [hb] at h; simp [responseSpecifier, hd] at h
    | cons b0 rest =>
      rw [hb] at h
      simp only [responseSpecifier, hd, Option.some.injEq] at h
      subst h
      by_cases h4 : int32 d.Data.length > 4
      · have he0 := he.mpr h4
        simp only [Download.Do, hb, hd, he0, h4, if_true, Download.GetRequest]
      · have he0 : ¬ (d.getFrame TransferExpedited TransferSizeIndicated).1 = 0 :=
          fun h0 => h4 (he.mp h0)
        simp only [Download.Do, hb, hd, he0, h4, if_false, Download.GetRequest]

/-- One turn of the segment loop whose exchange is acknowledged. -/
theorem segmentLoop_cons_of_ack (d : Download) (bus : Bus) (len i t k : Nat)
    (junk : List Nat) (rest : List (List Nat))
    (h : responseSpecifier (bus k) = some ServerSegmentDownload) :
    segmentLoop d bus len (junk :: rest) i t k =
      (segmentFrame d len i t junk :: (segmentLoop d bus len rest (i + 1) (t + 1) (k + 1)).1,
        (segmentLoop d bus len rest (i + 1) (t + 1) (k + 1)).2) := by
  cases hb : bus k with
  | error err => rw [hb] at h; exact absurd h (by simp [responseSpecifier])
  | ok resp =>
    cases hd : resp.Data with
    | nil => rw [hb] at h; simp [responseSpecifier, hd] at h
    | cons b0 tl =>
      rw [hb] at h
      simp only [responseSpecifier, hd, Option.some.injEq] at h
      simp only [segmentLoop, hb, hd, h, ne_eq, not_true_eq_false, if_false]

/-- The segment loop runs to its end when every exchange is acknowledged. -/
theorem segmentLoop_of_acks (d : Download) (bus : Bus) (len : Nat) (junks : List (List Nat)) :
    ∀ (i t k : Nat),
      (∀ j, j < junks.length → responseSpecifier (bus (k + j)) = some ServerSegmentDownload) →
      segmentLoop d bus len junks i t k = (segmentFrames d len junks i t, Outcome.success) := by
  induction junks with
  | nil => intro i t k _; rfl
  | cons junk rest ih =>
    intro i t k h
    have h0 := h 0 (Nat.succ_pos _)
    rw [Nat.add_zero] at h0
    have hrest : ∀ j, j < rest.length →
        responseSpecifier (bus (k + 1 + j)) = some ServerSegmentDownload := by
      intro j hj
      have := h (j + 1) (Nat.succ_lt_succ hj)
      rwa [show k + 1 + j = k + (j + 1) by omega]
    rw [segmentLoop_cons_of_ack d bus len i t k junk rest h0,
      ih (i + 1) (t + 1) (k + 1) hrest]
    rfl

/-- One segment frame per chunk. -/
theorem segmentFrames_length (d : Download) (len : Nat) (junks : List (List Nat)) :
    ∀ i t, (segmentFrames d len junks i t).length = junks.length := by
  induction junks with
  | nil => intro i t; rfl
  | cons junk rest ih => intro i t; simp only [segmentFrames, List.length_cons, ih]

/-- The segment frame of index `j`. -/
theorem segmentFrames_getElem? (d : Download) (len : Nat) (junks : List (List Nat)) :
    ∀ i t j, (segmentFrames d len junks i t)[j]? =
      (junks[j]?).map (fun junk => segmentFrame d len (i + j) (t + j) junk) := by
  induction junks with
  | nil => intro i t j; rfl
  | cons junk rest ih =>
    intro i t j
    cases j with
    | zero => simp only [segmentFrames, List.getElem?_cons_zero, Option.map_some', Nat.add_zero]
    | succ j =>
      simp only [segmentFrames, List.getElem?_cons_succ, ih]
      rw [show i + 1 + j = i + (j + 1) by omega, show t + 1 + j = t + (j + 1) by omega]

/-- The data bytes after the command byte of the segment frames are the chunks. -/
theorem segmentFrames_map_tail (d : Download) (len : Nat) (junks : List (List Nat)) :
    ∀ i t, (segmentFrames d len junks i t).map (fun f => f.Data.tail) = junks := by
  induction junks with
  | nil => intro i t; rfl
  | cons junk rest ih =>
    intro i t
    simp only [segmentFrames, List.map_cons, ih, segmentFrame, List.tail_cons]

/-- The command byte of the segment of index `i`, the toggle counter being equal to the index. -/
theorem segmentCommand_eq (len i : Nat) :
    segmentCommand len i i =
      (if i % 2 = 1 then 0x10 else 0) ||| (if i + 1 = len then 0x01 else 0) := by
  unfold segmentCommand
  by_cases h1 : i % 2 = 1 <;> by_cases h2 : i + 1 = len <;>
    simp [h1, h2, ClientSegmentDownload, TransferSegmentToggle]

/-- Concatenating the chunks gives the list back, when the fuel covers its length. -/
theorem splitNAux_flatten {α : Type} (n : Nat) :
    ∀ (fuel : Nat) (l : List α), l.length ≤ fuel → (splitNAux n fuel l).flatten = l := by
  intro fuel
  induction fuel with
  | zero =>
    intro l h
    have hl : l = [] := List.length_eq_zero.mp (Nat.le_zero.mp h)
    subst hl
    rfl
  | succ fuel ih =>
    intro l h
    cases l with
    | nil => rfl
    | cons x xs =>
      have hd : (List.drop (n + 1) (x :: xs)).length ≤ fuel := by
        rw [List.length_drop]
        simp only [List.length_cons] at h ⊢
        omega
      simp only [splitNAux, List.flatten_cons, ih _ hd]
      exact List.take_append_drop (n + 1) (x :: xs)

/-- Every chunk is non-empty and has at most `n + 1` elements. -/
theorem splitNAux_length_le {α : Type} (n : Nat) :
    ∀ (fuel : Nat) (l : List α) (c : List α), c ∈ splitNAux n fuel l →
      0 < c.length ∧ c.length ≤ n + 1 := by
  intro fuel
  induction fuel with
  | zero => intro l c h; simp [splitNAux] at h
  | succ fuel ih =>
    intro l c h
    cases l with
    | nil => simp [splitNAux] at h
    | cons x xs =>
      simp only [splitNAux, List.mem_cons] at h
      rcases h with h | h
      · subst h
        simp only [List.length_take, List.length_cons]
        omega
      · exact ih _ c h

/-- Concatenating the chunks of 7 bytes gives the payload back. -/
theorem splitN_flatten (b : List Nat) : (splitN b 7).flatten = b :=
  splitNAux_flatten 6 b.length b (Nat.le_refl _)

/-- Every chunk of `splitN b 7` has between 1 and 7 bytes. -/
theorem splitN_length_le (b c : List Nat) (h : c ∈ splitN b 7) :
    0 < c.length ∧ c.length ≤ 7 :=
  splitNAux_length_le 6 b.length b c h

/-- On `ackBus` every exchange after the first is a segment acknowledgement. -/
theorem responseSpecifier_ackBus_succ (j : Nat) :
    responseSpecifier (ackBus (1 + j)) = some ServerSegmentDownload := by
  have h : ¬ (1 + j = 0) := by omega
  simp only [ackBus, h, if_false]
  rfl

/-- The data of a segment frame is a command byte followed by one of the chunks. -/
theorem mem_segmentFrames (d : Download) (len : Nat) (junks : List (List Nat)) :
    ∀ i t f, f ∈ segmentFrames d len junks i t →
      ∃ cmd junk, junk ∈ junks ∧ f.Data = cmd :: junk := by
  induction junks with
  | nil => intro i t f h; simp [segmentFrames] at h
  | cons junk rest ih =>
    intro i t f h
    simp only [segmentFrames, List.mem_cons] at h
    rcases h with h | h
    · exact ⟨_, junk, List.mem_cons_self _ _, by rw [h]; rfl⟩
    · obtain ⟨cmd, j, hj, hf⟩ := ih _ _ f h
      exact ⟨cmd, j, List.mem_cons_of_mem _ hj, hf⟩

/-- A segmented download whose every exchange is acknowledged sends the initiate frame and all the segment frames, and succeeds. -/
theorem Do_of_acks (abort : Nat) (d : Download) (bus : Bus)
    (hseg : int32 d.Data.length > 4)
    (h0 : responseSpecifier (bus 0) = some ServerInitiateDownload)
    (hk : ∀ j, j < (splitN d.Data 7).length →
      responseSpecifier (bus (1 + j)) = some ServerSegmentDownload) :
    d.Do abort bus =
      (d.GetRequest ::
        segmentFrames d (splitN d.Data 7).length (splitN d.Data 7) 0 0, Outcome.success) := by
  rw [Do_of_responseSpecifier abort d bus _ h0, if_pos rfl, if_pos hseg,
    segmentLoop_of_acks d bus _ _ 0 0 1 hk]

/-- A download that is not segmented succeeds with the initiate frame alone once it is acknowledged. -/
theorem Do_of_not_segmented (abort : Nat) (d : Download) (bus : Bus)
    (hseg : ¬ int32 d.Data.length > 4)
    (h0 : responseSpecifier (bus 0) = some ServerInitiateDownload) :
    d.Do abort bus = ([d.GetRequest], Outcome.success) := by
  rw [Do_of_responseSpecifier abort d bus _ h0, if_pos rfl, if_neg hseg]

/-- The toggle bit and the last-segment bit read back from a segment command byte. -/
theorem command_bits (i len : Nat) :
    (((if i % 2 = 1 then 0x10 else 0) ||| (if i + 1 = len then 0x01 else 0)) &&& 0x10 = 0x10
      ↔ i % 2 = 1) ∧
    (((if i % 2 = 1 then 0x10 else 0) ||| (if i + 1 = len then 0x01 else 0)) &&& 0x01 = 0x01
      ↔ i + 1 = len) := by
  by_cases h1 : i % 2 = 1
  · by_cases h2 : i + 1 = len
    · rw [if_pos h1, if_pos h2]
      exact ⟨⟨fun _ => h1, fun _ => by decide⟩, ⟨fun _ => h2, fun _ => by decide⟩⟩
    · rw [if_pos h1, if_neg h2]
      exact ⟨⟨fun _ => h1, fun _ => by decide⟩,
        ⟨fun h => absurd h (by decide), fun h => absurd h h2⟩⟩
  · by_cases h2 : i + 1 = len
    · rw [if_neg h1, if_pos h2]
      exact ⟨⟨fun h => absurd h (by decide), fun h => absurd h h1⟩,
        ⟨fun _ => h2, fun _ => by decide⟩⟩
    · rw [if_neg h1, if_neg h2]
      exact ⟨⟨fun h => absurd h (by decide), fun h => absurd h h1⟩,
        ⟨fun h => absurd h (by decide), fun h => absurd h h2⟩⟩

end sdo

/-! ## The initiate frame (claims C1 to C3) -/

namespace sdo

open canopen

/-- C1, as amended: for every download whose payload has at most 4 bytes, the command byte
(data byte 0) of the initiate frame has the expedited bit `0x02` set, and the count decoded
from its field `(byte0 & 0x0C) >> 2` is `4 - len(payload)` reduced modulo 4: it is
`4 - len(payload)` for the lengths 1 to 4 and 0 for the empty payload. -/
theorem getFrame_expedited_bit_and_unused_count (d : Download) (h : d.Data.length ≤ 4) :
    ∃ b0 rest, d.GetRequest.Data = b0 :: rest ∧ b0 &&& 0x02 = 0x02 ∧
      (b0 &&& 0x0C) >>> 2 = (4 - d.Data.length) % 4 := by
  rw [GetRequest_of_le_four d h]
  exact ⟨_, _, rfl, command_expedited_fields _ h⟩

/-- C1, an instance: the payload `[1, 2]` gives the expedited bit and the count 2. -/
theorem getFrame_expedited_bit_and_unused_count_witness :
    ([1, 2] : List Nat).length ≤ 4 ∧
    ∃ b0 rest,
      (Download.mk ⟨⟨0x40, 0x60⟩, 1⟩ [1, 2] 0x601 0x581).GetRequest.Data = b0 :: rest ∧
      b0 &&& 0x02 = 0x02 ∧ (b0 &&& 0x0C) >>> 2 = (4 - ([1, 2] : List Nat).length) % 4 :=
  ⟨by decide,
    getFrame_expedited_bit_and_unused_count ⟨⟨⟨0x40, 0x60⟩, 1⟩, [1, 2], 0x601, 0x581⟩
      (by decide)⟩

/-- C1 fails for the empty payload: the command byte of the initiate frame is `0x23`, and
the count decoded from it is 0, not `4 - 0 = 4`. -/
theorem getFrame_empty_payload_unused_count :
    (Download.mk ⟨⟨0x40, 0x60⟩, 1⟩ [] 0x601 0x581).GetRequest.Data
        = [0x23, 0x40, 0x60, 1, 0, 0, 0, 0] ∧
      ((0x23 : Nat) &&& 0x0C) >>> 2 = 0 ∧
      ((0x23 : Nat) &&& 0x0C) >>> 2 ≠ 4 - ([] : List Nat).length := by
  decide

/-- C2, as amended: for every download whose payload length is above 4 and below `2 ^ 31`
(the lengths that `int32` keeps), the initiate frame has exactly 8 data bytes, its command
byte has the expedited bit `0x02` cleared and the size-indicated bit `0x01` set, bytes 1
to 3 are the object index and the sub-index, and bytes 4 to 7 are the payload length as a
little-endian unsigned 32-bit integer. -/
theorem getFrame_segmented_size (d : Download) (h : 4 < d.Data.length)
    (h31 : d.Data.length < 2 ^ 31) :
    ∃ b0 s0 s1 s2 s3,
      d.GetRequest.Data =
        [b0, d.ObjectIndex.Index.B0, d.ObjectIndex.Index.B1, d.ObjectIndex.SubIndex,
          s0, s1, s2, s3] ∧
      d.GetRequest.Data.length = 8 ∧
      b0 &&& 0x02 = 0 ∧ b0 &&& 0x01 = 0x01 ∧
      s0 < 256 ∧ s1 < 256 ∧ s2 < 256 ∧ s3 < 256 ∧
      s0 + 2 ^ 8 * s1 + 2 ^ 16 * s2 + 2 ^ 24 * s3 = d.Data.length := by
  obtain ⟨s0, s1, s2, s3, hs, h0, h1, h2, h3, hsum⟩ := littleEndian32_decode d.Data.length h31
  rw [GetRequest_of_four_lt d h h31, hs]
  exact ⟨0x21, s0, s1, s2, s3, rfl, rfl, by decide, by decide, h0, h1, h2, h3, hsum⟩

/-- C2, an instance: a payload of 10 bytes. -/
theorem getFrame_segmented_size_witness :
    4 < (List.range 10).length ∧ (List.range 10).length < 2 ^ 31 ∧
    ∃ b0 s0 s1 s2 s3,
      (Download.mk ⟨⟨0x40, 0x60⟩, 1⟩ (List.range 10) 0x601 0x581).GetRequest.Data =
        [b0, 0x40, 0x60, 1, s0, s1, s2, s3] ∧
      (Download.mk ⟨⟨0x40, 0x60⟩, 1⟩ (List.range 10) 0x601 0x581).GetRequest.Data.length
        = 8 ∧
      b0 &&& 0x02 = 0 ∧ b0 &&& 0x01 = 0x01 ∧
      s0 < 256 ∧ s1 < 256 ∧ s2 < 256 ∧ s3 < 256 ∧
      s0 + 2 ^ 8 * s1 + 2 ^ 16 * s2 + 2 ^ 24 * s3 = (List.range 10).length :=
  ⟨by decide, by decide,
    getFrame_segmented_size ⟨⟨⟨0x40, 0x60⟩, 1⟩, List.range 10, 0x601, 0x581⟩
      (by decide) (by decide)⟩

/-- C2 fails for a payload of `2 ^ 31` bytes: `int32` wraps its length to a negative
number, `getFrame` takes its expedited branch, and the initiate frame has `2 ^ 31 + 4` data
bytes, not 8. -/
theorem getFrame_payload_two_pow_31_length :
    4 < (List.replicate (2 ^ 31) (0 : Nat)).length ∧
    (Download.mk ⟨⟨0x40, 0x60⟩, 1⟩ (List.replicate (2 ^ 31) 0) 0x601 0x581).GetRequest.Data.length
      = 2 ^ 31 + 4 ∧
    (Download.mk ⟨⟨0x40, 0x60⟩, 1⟩ (List.replicate (2 ^ 31) 0) 0x601 0x581).GetRequest.Data.length
      ≠ 8 := by
  have h := (getFrame_length_of_wrapped
    ⟨⟨⟨0x40, 0x60⟩, 1⟩, List.replicate (2 ^ 31) 0, 0x601, 0x581⟩
    TransferExpedited TransferSizeIndicated (List.length_replicate _ _)).2
  refine ⟨?_, h, ?_⟩
  · rw [List.length_replicate]
    norm_num
  · rw [Download.GetRequest, h]
    norm_num

/-- C3, as amended: for every download whose payload has at most 4 bytes, the initiate
frame carries the request COB-ID and exactly 8 data bytes: byte 0 is
`0x20 | 0x02 | 0x01 | (((4 - len) << 2) & 0x0C)`, bytes 1 and 2 are the object index
(`B0` then `B1`), byte 3 is the sub-index, and bytes 4 to 7 are the payload followed by
zeros up to 4 bytes. -/
theorem getFrame_expedited_layout (d : Download) (h : d.Data.length ≤ 4) :
    d.GetRequest =
      { CobID := d.RequestCobID, Rtr := false,
        Data := [0x20 ||| 0x02 ||| 0x01 ||| (((4 - d.Data.length) <<< 2) &&& 0x0C),
          d.ObjectIndex.Index.B0, d.ObjectIndex.Index.B1, d.ObjectIndex.SubIndex]
          ++ (d.Data ++ List.replicate (4 - d.Data.length) 0) } ∧
    d.GetRequest.Data.length = 8 := by
  rw [GetRequest_of_le_four d h]
  refine ⟨rfl, ?_⟩
  simp only [List.length_cons, List.length_append, List.length_replicate]
  omega

/-- C3, an instance: the payload `[0x01, 0x02]` gives the command byte `0x2B` (expedited,
size indicated, 2 unused bytes) and the data bytes `01 02 00 00`. -/
theorem getFrame_expedited_layout_witness :
    ([0x01, 0x02] : List Nat).length ≤ 4 ∧
    (Download.mk ⟨⟨0x40, 0x60⟩, 1⟩ [0x01, 0x02] 0x601 0x581).GetRequest =
      { CobID := 0x601, Rtr := false,
        Data := [0x20 ||| 0x02 ||| 0x01 ||| (((4 - 2) <<< 2) &&& 0x0C), 0x40, 0x60, 1]
          ++ ([0x01, 0x02] ++ List.replicate (4 - 2) 0) } ∧
    (Download.mk ⟨⟨0x40, 0x60⟩, 1⟩ [0x01, 0x02] 0x601 0x581).GetRequest.Data.length = 8 :=
  ⟨by decide,
    getFrame_expedited_layout ⟨⟨⟨0x40, 0x60⟩, 1⟩, [0x01, 0x02], 0x601, 0x581⟩ (by decide)⟩

/-- C3 fails for the empty payload: byte 0 of the initiate frame is `0x23`, whereas
`0x20 | 0x02 | 0x01 | ((4 - 0) << 2)` is `0x33`. -/
theorem getFrame_empty_payload_command_byte :
    (Download.mk ⟨⟨0x40, 0x60⟩, 1⟩ [] 0x601 0x581).GetRequest.Data.head? = some 0x23 ∧
    (Download.mk ⟨⟨0x40, 0x60⟩, 1⟩ [] 0x601 0x581).GetRequest.Data.head?
      ≠ some (0x20 ||| 0x02 ||| 0x01 ||| ((4 - ([] : List Nat).length) <<< 2)) := by
  decide

end sdo

/-! ## The frame model (claims C4 and C10) -/

namespace canopen

/-- C4, as amended: for every CANopen frame `f` with a COB-ID below `2 ^ 11` and at most 8
data bytes, `f.CANFrame()` is defined, its length field is `len(f.Data)`, and
`CANopenFrame(f.CANFrame())` has the COB-ID and the Rtr flag of `f`, and as data the bytes
of `f` followed by zeros up to 8 bytes. -/
theorem CANopenFrame_CANFrame_roundtrip (f : Frame) (hc : f.CobID < 2 ^ 11)
    (hl : f.Data.length ≤ 8) :
    ∃ c, f.CANFrame = some c ∧ c.Length = f.Data.length ∧
      CANopenFrame c = { CobID := f.CobID, Rtr := f.Rtr,
                         Data := f.Data ++ List.replicate (8 - f.Data.length) 0 } := by
  have h32 : f.CobID % 2 ^ 32 = f.CobID := Nat.mod_eq_of_lt (lt_trans hc (by norm_num))
  have h16 : f.CobID % 2 ^ 16 = f.CobID := Nat.mod_eq_of_lt (lt_trans hc (by norm_num))
  have hm : can.MaskRtr &&& can.MaskIDSff = 0 := by decide
  refine ⟨_, CANFrame_of_le f hl, rfl, ?_⟩
  have hD := ofFn_getD_eq_pad _ hl
  cases hr : f.Rtr
  · have hid : ((f.CobID % 2 ^ 32) &&& can.MaskIDSff) % 2 ^ 16 = f.CobID := by
      rw [h32, and_MaskIDSff_of_lt _ hc, h16]
    have hrt : decide ((f.CobID % 2 ^ 32) &&& can.MaskRtr = can.MaskRtr) = false := by
      rw [h32, and_MaskRtr_of_lt _ hc]
      decide
    simp only [CANopenFrame, hid, hrt, hD, Bool.false_eq_true, if_false]
  · have hid : ((f.CobID % 2 ^ 32 ||| can.MaskRtr) &&& can.MaskIDSff) % 2 ^ 16 = f.CobID := by
      rw [Nat.and_distrib_right, hm, Nat.or_zero, h32, and_MaskIDSff_of_lt _ hc, h16]
    have hrt : decide ((f.CobID % 2 ^ 32 ||| can.MaskRtr) &&& can.MaskRtr = can.MaskRtr)
        = true := by
      rw [Nat.and_distrib_right, h32, and_MaskRtr_of_lt _ hc, Nat.and_self, Nat.zero_or]
      decide
    simp only [CANopenFrame, hid, hrt, hD, if_true]

/-- C4, an instance: a remote-request frame of 8 data bytes comes back unchanged. -/
theorem CANopenFrame_CANFrame_roundtrip_witness :
    (0x181 : Nat) < 2 ^ 11 ∧ ([1, 2, 3, 4, 5, 6, 7, 8] : List Nat).length ≤ 8 ∧
    ∃ c, (Frame.mk 0x181 true [1, 2, 3, 4, 5, 6, 7, 8]).CANFrame = some c ∧
      c.Length = ([1, 2, 3, 4, 5, 6, 7, 8] : List Nat).length ∧
      CANopenFrame c = { CobID := 0x181, Rtr := true,
                         Data := [1, 2, 3, 4, 5, 6, 7, 8] ++ List.replicate (8 - 8) 0 } :=
  ⟨by decide, by decide,
    CANopenFrame_CANFrame_roundtrip ⟨0x181, true, [1, 2, 3, 4, 5, 6, 7, 8]⟩
      (by decide) (by decide)⟩

/-- C4 fails for a frame of 2 data bytes: the frame that comes back has 8 data bytes. -/
theorem CANopenFrame_CANFrame_short_data :
    Option.map CANopenFrame (Frame.mk 0x181 false [1, 2]).CANFrame
      = some { CobID := 0x181, Rtr := false, Data := [1, 2, 0, 0, 0, 0, 0, 0] } ∧
    Option.map (fun c => (CANopenFrame c).Data) (Frame.mk 0x181 false [1, 2]).CANFrame
      ≠ some (Frame.mk 0x181 false [1, 2]).Data := by
  decide

/-- C10: `NewFrame(id, data)` has the COB-ID `id & 0x7FF` (the identifier truncated to 11
bits, whatever its width), the data `data` and a clear Rtr flag; and for every CAN frame
`c`, `CANopenFrame(c)` has the COB-ID `c.ID & 0x7FF`, below `2 ^ 11`, its Rtr flag is set
exactly when the RTR bit (bit 30) of `c.ID` is set, and its data are the 8 data bytes of
`c` unchanged. -/
theorem NewFrame_CANopenFrame_fields :
    (∀ (id : Nat) (data : List Nat),
      NewFrame id data = { CobID := id &&& 0x7FF, Rtr := false, Data := data } ∧
      (NewFrame id data).CobID = id % 2 ^ 11 ∧
      (NewFrame id data).CobID < 2 ^ 11) ∧
    (∀ c : can.Frame,
      (CANopenFrame c).CobID = c.ID &&& 0x7FF ∧
      (CANopenFrame c).CobID < 2 ^ 11 ∧
      ((CANopenFrame c).Rtr = true ↔ c.ID.testBit 30 = true) ∧
      (CANopenFrame c).Data = List.ofFn c.Data ∧
      (CANopenFrame c).Data.length = 8 ∧
      ∀ i : Fin 8, (CANopenFrame c).Data[i.val]? = some (c.Data i)) := by
  have hmask : ∀ x : Nat, x &&& 0x7FF = x % 2 ^ 11 := fun x =>
    Nat.and_pow_two_sub_one_eq_mod x 11
  have hlt : ∀ x : Nat, x &&& 0x7FF < 2 ^ 11 := fun x => by
    rw [hmask]
    exact Nat.mod_lt _ (by norm_num)
  constructor
  · intro id data
    exact ⟨rfl, hmask id, hlt id⟩
  · intro c
    have hcob : (CANopenFrame c).CobID = c.ID &&& 0x7FF :=
      Nat.mod_eq_of_lt (lt_trans (hlt c.ID) (by norm_num))
    have hlen : (CANopenFrame c).Data.length = 8 := List.length_ofFn c.Data
    refine ⟨hcob, hcob ▸ hlt c.ID, ?_, rfl, hlen, ?_⟩
    · rw [← and_MaskRtr_eq_iff_testBit]
      exact decide_eq_true_iff
    · intro i
      have hi : i.val < (List.ofFn c.Data).length := by
        rw [List.length_ofFn]
        exact i.isLt
      show (List.ofFn c.Data)[i.val]? = some (c.Data i)
      rw [List.getElem?_eq_getElem hi, List.getElem_ofFn]

end canopen

/-! ## The download transaction (claims C5 to C7 and C9) -/

namespace sdo

open canopen

/-- C5, what the code does: when the response to the initiate frame carries a command
specifier that is neither `ServerInitiateDownload` (`0x60`) nor the abort specifier, `Do`
does not return an error to its caller: `log.Fatalf` terminates the process, after the
initiate frame alone was sent. -/
theorem Do_unexpected_specifier_fatal (abort : Nat) (d : Download) (bus : Bus) (scs : Nat)
    (h : responseSpecifier (bus 0) = some scs)
    (h1 : scs ≠ ServerInitiateDownload) (h2 : scs ≠ abort) :
    d.Do abort bus = ([d.GetRequest], Outcome.fatal scs) := by
  rw [Do_of_responseSpecifier abort d bus scs h, if_neg h1, if_neg h2]

/-- C5, the failing input: the download of `01 02` answered with the command byte `0x20`
ends in `log.Fatalf`. -/
theorem Do_unexpected_specifier_fatal_witness :
    responseSpecifier (constBus 0x20 0) = some 0x20 ∧
    (0x20 : Nat) ≠ ServerInitiateDownload ∧ (0x20 : Nat) ≠ 0x80 ∧
    download2.Do 0x80 (constBus 0x20) =
      ([{ CobID := 0x601, Rtr := false, Data := [0x2B, 0x40, 0x60, 1, 1, 2, 0, 0] }],
        Outcome.fatal 0x20) :=
  ⟨by decide, by decide, by decide,
    Do_unexpected_specifier_fatal 0x80 download2 (constBus 0x20) 0x20
      (by decide) (by decide) (by decide)⟩

/-- C6: for every download, expedited or segmented, if the response to the initiate frame
carries the abort command specifier, `Do` returns the error "Server aborted download" and
the initiate frame is the only frame sent.  The abort specifier is any constant other than
`ServerInitiateDownload`, the `case` that precedes it in the `switch`. -/
theorem Do_server_abort (abort : Nat) (d : Download) (bus : Bus)
    (ha : abort ≠ ServerInitiateDownload)
    (h : responseSpecifier (bus 0) = some abort) :
    d.Do abort bus = ([d.GetRequest], Outcome.failure Error.serverAborted) ∧
      (d.Do abort bus).1.length = 1 := by
  have hDo : d.Do abort bus = ([d.GetRequest], Outcome.failure Error.serverAborted) := by
    rw [Do_of_responseSpecifier abort d bus abort h, if_neg ha, if_pos rfl]
  rw [hDo]
  exact ⟨rfl, rfl⟩

/-- C6, an instance: the segmented download of ten bytes, aborted by the command byte
`0x80`. -/
theorem Do_server_abort_witness :
    (0x80 : Nat) ≠ ServerInitiateDownload ∧
    responseSpecifier (constBus 0x80 0) = some 0x80 ∧
    download10.Do 0x80 (constBus 0x80) =
      ([download10.GetRequest], Outcome.failure Error.serverAborted) ∧
    (download10.Do 0x80 (constBus 0x80)).1.length = 1 :=
  ⟨by decide, by decide,
    Do_server_abort 0x80 download10 (constBus 0x80) (by decide) (by decide)⟩

/-- C7: in a segmented download (length above 4 as an `int32`) whose initiate exchange is
acknowledged with `0x60` and whose every segment exchange is acknowledged with `0x20`, `Do`
succeeds after sending the initiate frame and one segment frame per chunk, and the command
byte of the segment frame of index `i` is `(0x10 if i is odd) | (0x01 if i is the last
index)`: the toggle bit is set exactly on the odd indices, bit 0 exactly on the last
segment. -/
theorem Do_segment_command_bytes (abort : Nat) (d : Download) (bus : Bus)
    (hseg : int32 d.Data.length > 4)
    (h0 : responseSpecifier (bus 0) = some ServerInitiateDownload)
    (hk : ∀ j, j < (splitN d.Data 7).length →
      responseSpecifier (bus (1 + j)) = some ServerSegmentDownload) :
    ∃ segs, d.Do abort bus = (d.GetRequest :: segs, Outcome.success) ∧
      segs.length = (splitN d.Data 7).length ∧
      ∀ i, i < segs.length → ∃ f cmd chunk, segs[i]? = some f ∧ f.Data = cmd :: chunk ∧
        cmd = ((if i % 2 = 1 then 0x10 else 0) ||| (if i + 1 = segs.length then 0x01 else 0)) ∧
        (cmd &&& 0x10 = 0x10 ↔ i % 2 = 1) ∧
        (cmd &&& 0x01 = 0x01 ↔ i + 1 = segs.length) := by
  refine ⟨_, Do_of_acks abort d bus hseg h0 hk, segmentFrames_length _ _ _ _ _, ?_⟩
  intro i hi
  rw [segmentFrames_length] at hi ⊢
  refine ⟨segmentFrame d (splitN d.Data 7).length i i ((splitN d.Data 7)[i]), _,
    (splitN d.Data 7)[i], ?_, rfl, segmentCommand_eq _ i, ?_⟩
  · rw [segmentFrames_getElem?, List.getElem?_eq_getElem hi, Option.map_some', Nat.zero_add]
  · rw [segmentCommand_eq]
    exact command_bits i _

/-- C7, an instance: the download of ten bytes, sent as two segments. -/
theorem Do_segment_command_bytes_witness :
    int32 download10.Data.length > 4 ∧
    responseSpecifier (ackBus 0) = some ServerInitiateDownload ∧
    (∀ j, j < (splitN download10.Data 7).length →
      responseSpecifier (ackBus (1 + j)) = some ServerSegmentDownload) ∧
    ∃ segs, download10.Do 0x80 ackBus = (download10.GetRequest :: segs, Outcome.success) ∧
      segs.length = (splitN download10.Data 7).length ∧
      ∀ i, i < segs.length → ∃ f cmd chunk, segs[i]? = some f ∧ f.Data = cmd :: chunk ∧
        cmd = ((if i % 2 = 1 then 0x10 else 0) ||| (if i + 1 = segs.length then 0x01 else 0)) ∧
        (cmd &&& 0x10 = 0x10 ↔ i % 2 = 1) ∧
        (cmd &&& 0x01 = 0x01 ↔ i + 1 = segs.length) :=
  ⟨by decide, by decide, fun j _ => responseSpecifier_ackBus_succ j,
    Do_segment_command_bytes 0x80 download10 ackBus (by decide) (by decide)
      (fun j _ => responseSpecifier_ackBus_succ j)⟩

/-- C9 fails on the download of ten bytes with every exchange acknowledged: `Do` sends the
initiate frame and two segment frames, and the last segment frame, which carries the
chunk `07 08 09`, has 4 data bytes: the length field of its CAN frame is 4, not 8. -/
theorem Do_last_segment_frame_length :
    download10.Do 0x80 ackBus =
      ([{ CobID := 0x601, Rtr := false, Data := [0x21, 0x40, 0x60, 1, 10, 0, 0, 0] },
        { CobID := 0x601, Rtr := false, Data := [0x00, 0, 1, 2, 3, 4, 5, 6] },
        { CobID := 0x601, Rtr := false, Data := [0x11, 7, 8, 9] }], Outcome.success) ∧
    (download10.Do 0x80 ackBus).1.map (fun f => Option.map (fun c => c.Length) f.CANFrame)
      = [some 8, some 8, some 4] := by
  decide

end sdo

/-! ## Further lemmas on the frame model -/

namespace canopen

/-- A 16-bit identifier has no RTR bit. -/
theorem testBit_30_of_lt (x : Nat) (h : x < 2 ^ 16) : x.testBit 30 = false :=
  Nat.testBit_lt_two_pow (lt_trans h (by norm_num))

/-- The slices of `CANFrame` are out of range for a frame of more than 8 data bytes. -/
theorem CANFrame_eq_none (f : Frame) (h : 8 < f.Data.length) : f.CANFrame = none := by
  have h8 : ¬ f.Data.length ≤ 8 := by omega
  simp only [Frame.CANFrame, h8, if_false]

/-- The method `CANFrame` is defined exactly on the frames of at most 8 data bytes. -/
theorem CANFrame_isSome_iff (f : Frame) : f.CANFrame.isSome = true ↔ f.Data.length ≤ 8 := by
  by_cases h : f.Data.length ≤ 8
  · rw [CANFrame_of_le f h]
    exact ⟨fun _ => h, fun _ => rfl⟩
  · rw [CANFrame_eq_none f (by omega)]
    exact ⟨fun hs => absurd hs (by decide), fun hl => absurd hl h⟩

/-- The data of `CANopenFrame` start with data byte 0 of the CAN frame. -/
theorem CANopenFrame_Data_cons (c : can.Frame) :
    (CANopenFrame c).Data = c.Data 0 :: List.ofFn (fun i : Fin 7 => c.Data i.succ) :=
  List.ofFn_succ c.Data

/-- The method `Dump` gives one string for the COB-ID and one per data byte. -/
theorem Dump_length (f : Frame) : f.Dump.length = 1 + f.Data.length := by
  simp only [Frame.Dump, List.length_append, List.length_cons, List.length_nil,
    List.length_map, Nat.zero_add]

end canopen

/-! ## Further lemmas on the transaction -/

namespace sdo

open canopen

/-- The initiate frame carries the request COB-ID as it is. -/
theorem getFrame_CobID (d : Download) (e s : Nat) :
    (d.getFrame e s).2.CobID = d.RequestCobID := by
  by_cases h : int32 d.Data.length > 4
  · simp only [Download.getFrame, h, if_true]
  · simp only [Download.getFrame, h, if_false]

/-- The frame `getFrame` builds on its other branch, when the length as an `int32` is not
above 4: the payload is appended whole after the 4 header bytes. -/
theorem getFrame_Data_length_of_not_gt (d : Download) (e s : Nat)
    (h : ¬ int32 d.Data.length > 4) :
    (d.getFrame e s).2.Data.length = 4 + (d.Data.length + (4 - d.Data.length)) := by
  simp only [Download.getFrame, h, if_false, List.length_append, List.length_cons,
    List.length_nil, List.length_replicate]

/-- A download of more than 4 bytes whose initiate frame can be put on the bus (it has a
CAN frame) is segmented: on the other branch of `getFrame` the frame would have more than
8 data bytes. -/
theorem int32_gt_four_of_CANFrame (d : Download) (h4 : 4 < d.Data.length)
    (hsend : d.GetRequest.CANFrame.isSome = true) : int32 d.Data.length > 4 := by
  by_contra h
  have hl := getFrame_Data_length_of_not_gt d TransferExpedited TransferSizeIndicated h
  have h8 : 8 < d.GetRequest.Data.length := by
    rw [Download.GetRequest, hl]
    omega
  rw [CANFrame_eq_none _ h8] at hsend
  exact absurd hsend (by decide)

/-- The frame `getFrame` builds on its segmented branch has 8 data bytes, whatever the
length. -/
theorem getFrame_Data_length_of_gt (d : Download) (e s : Nat)
    (h : int32 d.Data.length > 4) :
    (d.getFrame e s).2.Data.length = 8 := by
  simp only [Download.getFrame, h, if_true, List.length_append, List.length_cons,
    List.length_nil, List.length_replicate, littleEndian32_length]

/-- For a download of more than 4 bytes, the initiate frame can be put on the bus exactly
when the download is segmented, that is when `Do` finds `e == 0` after `getFrame`. -/
theorem GetRequest_CANFrame_isSome_iff (d : Download) (h4 : 4 < d.Data.length) :
    d.GetRequest.CANFrame.isSome = true ↔ int32 d.Data.length > 4 := by
  constructor
  · exact int32_gt_four_of_CANFrame d h4
  · intro h
    rw [CANFrame_isSome_iff, Download.GetRequest, getFrame_Data_length_of_gt d _ _ h]

/-- The initiate frame has 8 data bytes, for a length in the `int32` range. -/
theorem GetRequest_length (d : Download) (h31 : d.Data.length < 2 ^ 31) :
    d.GetRequest.Data.length = 8 := by
  by_cases h : d.Data.length ≤ 4
  · rw [GetRequest_of_le_four d h]
    simp only [List.length_cons, List.length_append, List.length_replicate]
    omega
  · rw [GetRequest_of_four_lt d (by omega) h31]
    rfl

/-- Two expedited command bytes for different lengths between 1 and 4 differ. -/
theorem command_expedited_ne (n m : Nat) (hn1 : 1 ≤ n) (hn4 : n ≤ 4) (hm1 : 1 ≤ m)
    (hm4 : m ≤ 4) (hne : n ≠ m) :
    (0x20 ||| 0x02 ||| 0x01 ||| (((4 - n) <<< 2) &&& 0x0C)) ≠
      (0x20 ||| 0x02 ||| 0x01 ||| (((4 - m) <<< 2) &&& 0x0C)) := by
  interval_cases n <;> interval_cases m <;> first | exact absurd rfl hne | decide

/-- The view of an exchange holds a specifier exactly when the response has one. -/
theorem exchangeView_ok_some (x : Exchange) (scs : Nat) :
    exchangeView x = Except.ok (some scs) ↔ responseSpecifier x = some scs := by
  cases x with
  | error err => simp [exchangeView, responseSpecifier]
  | ok resp => simp [exchangeView]

/-- One turn of the segment loop, in terms of what it reads of the exchange. -/
theorem segmentLoop_cons_view (d : Download) (bus : Bus) (len i t k : Nat)
    (junk : List Nat) (rest : List (List Nat)) :
    segmentLoop d bus len (junk :: rest) i t k =
      match exchangeView (bus k) with
      | Except.error err =>
        ([segmentFrame d len i t junk], Outcome.failure (Error.client err))
      | Except.ok none => ([segmentFrame d len i t junk], Outcome.panic)
      | Except.ok (some scs) =>
        if scs ≠ ServerSegmentDownload then
          ([segmentFrame d len i t junk], Outcome.failure (Error.invalidScs scs))
        else
          (segmentFrame d len i t junk ::
              (segmentLoop d bus len rest (i + 1) (t + 1) (k + 1)).1,
            (segmentLoop d bus len rest (i + 1) (t + 1) (k + 1)).2) := by
  cases hb : bus k with
  | error err => simp only [segmentLoop, hb, exchangeView]
  | ok resp =>
    cases hd : resp.Data with
    | nil => simp only [segmentLoop, hb, hd, exchangeView, responseSpecifier]
    | cons b0 tl => simp only [segmentLoop, hb, hd, exchangeView, responseSpecifier]

/-- The method `Do`, in terms of what it reads of the initiate exchange. -/
theorem Do_view (abort : Nat) (d : Download) (bus : Bus) :
    d.Do abort bus =
      match exchangeView (bus 0) with
      | Except.error err => ([d.GetRequest], Outcome.failure (Error.client err))
      | Except.ok none => ([d.GetRequest], Outcome.panic)
      | Except.ok (some scs) =>
        if scs = ServerInitiateDownload then
          if int32 d.Data.length > 4 then
            (d.GetRequest ::
                (segmentLoop d bus (splitN d.Data 7).length (splitN d.Data 7) 0 0 1).1,
              (segmentLoop d bus (splitN d.Data 7).length (splitN d.Data 7) 0 0 1).2)
          else ([d.GetRequest], Outcome.success)
        else if scs = abort then ([d.GetRequest], Outcome.failure Error.serverAborted)
        else ([d.GetRequest], Outcome.fatal scs) := by
  cases hb : bus 0 with
  | error err => simp only [Download.Do, hb, exchangeView, Download.GetRequest]
  | ok resp =>
    cases hd : resp.Data with
    | nil => simp only [Download.Do, hb, hd, exchangeView, responseSpecifier, Download.GetRequest]
    | cons b0 tl =>
      have h : responseSpecifier (bus 0) = some (b0 &&& TransferMaskCommandSpecifier) := by
        rw [hb]
        simp only [responseSpecifier, hd]
      rw [Do_of_responseSpecifier abort d bus _ h]
      simp only [exchangeView, responseSpecifier, hd]

/-- The segment loop is the same on two buses with the same views. -/
theorem segmentLoop_congr (d : Download) (bus1 bus2 : Bus) (len : Nat)
    (h : ∀ k, exchangeView (bus1 k) = exchangeView (bus2 k)) (junks : List (List Nat)) :
    ∀ i t k, segmentLoop d bus1 len junks i t k = segmentLoop d bus2 len junks i t k := by
  induction junks with
  | nil => intro i t k; rfl
  | cons junk rest ih =>
    intro i t k
    rw [segmentLoop_cons_view, segmentLoop_cons_view, h k, ih]

/-- The method `Do` is the same on two buses with the same views. -/
theorem Do_congr (abort : Nat) (d : Download) (bus1 bus2 : Bus)
    (h : ∀ k, exchangeView (bus1 k) = exchangeView (bus2 k)) :
    d.Do abort bus1 = d.Do abort bus2 := by
  rw [Do_view, Do_view, h 0, segmentLoop_congr d bus1 bus2 _ h]

/-- The segment loop runs to its end exactly when every exchange is acknowledged. -/
theorem segmentLoop_success_iff (d : Download) (bus : Bus) (len : Nat)
    (junks : List (List Nat)) :
    ∀ i t k, (segmentLoop d bus len junks i t k).2 = Outcome.success ↔
      ∀ j, j < junks.length → responseSpecifier (bus (k + j)) = some ServerSegmentDownload := by
  induction junks with
  | nil =>
    intro i t k
    exact ⟨fun _ j hj => absurd hj (Nat.not_lt_zero j), fun _ => rfl⟩
  | cons junk rest ih =>
    intro i t k
    by_cases hack : responseSpecifier (bus k) = some ServerSegmentDownload
    · rw [segmentLoop_cons_of_ack d bus len i t k junk rest hack]
      show (segmentLoop d bus len rest (i + 1) (t + 1) (k + 1)).2 = Outcome.success ↔ _
      rw [ih]
      constructor
      · intro h j hj
        cases j with
        | zero => exact hack
        | succ j =>
          have := h j (Nat.lt_of_succ_lt_succ hj)
          rwa [show k + 1 + j = k + (j + 1) by omega] at this
      · intro h j hj
        have := h (j + 1) (Nat.succ_lt_succ hj)
        rwa [show k + (j + 1) = k + 1 + j by omega] at this
    · constructor
      · intro hs
        exfalso
        rw [segmentLoop_cons_view] at hs
        cases hv : exchangeView (bus k) with
        | error err => rw [hv] at hs; exact absurd hs (by simp)
        | ok o =>
          cases o with
          | none => rw [hv] at hs; exact absurd hs (by simp)
          | some scs =>
            have hne : scs ≠ ServerSegmentDownload := by
              intro hscs
              rw [hscs] at hv
              exact hack ((exchangeView_ok_some _ _).mp hv)
            rw [hv] at hs
            simp only [hne, ne_eq, not_false_eq_true, if_true] at hs
            exact absurd hs (by simp)
      · intro h
        exact absurd (h 0 (Nat.succ_pos _)) hack

/-- The segment loop stops at the first exchange, of index `j`, that ends a turn: the frames
sent are the segments 0 to `j`. -/
theorem segmentLoop_stop (d : Download) (bus : Bus) (len : Nat) (o : Outcome)
    (junks : List (List Nat)) :
    ∀ i t k j, j < junks.length →
      (∀ m, m < j → responseSpecifier (bus (k + m)) = some ServerSegmentDownload) →
      (∀ junk rest i0 t0, segmentLoop d bus len (junk :: rest) i0 t0 (k + j) =
        ([segmentFrame d len i0 t0 junk], o)) →
      segmentLoop d bus len junks i t k =
        ((segmentFrames d len junks i t).take (j + 1), o) := by
  induction junks with
  | nil => intro i t k j hj; exact absurd hj (Nat.not_lt_zero j)
  | cons junk rest ih =>
    intro i t k j hj hprev hstop
    cases j with
    | zero =>
      have h0 := hstop junk rest i t
      rw [Nat.add_zero] at h0
      rw [h0]
      rfl
    | succ j =>
      have h0 := hprev 0 (Nat.succ_pos _)
      rw [segmentLoop_cons_of_ack d bus len i t k junk rest h0,
        ih (i + 1) (t + 1) (k + 1) j (Nat.lt_of_succ_lt_succ hj)
          (fun m hm => by
            have := hprev (m + 1) (Nat.succ_lt_succ hm)
            rwa [show k + (m + 1) = k + 1 + m by omega] at this)
          (fun junk0 rest0 i0 t0 => by
            have := hstop junk0 rest0 i0 t0
            rwa [show k + (j + 1) = k + 1 + j by omega] at this)]
      rfl

/-- One turn of the segment loop whose exchange fails in the transaction engine. -/
theorem segmentLoop_cons_of_error (d : Download) (bus : Bus) (len i t k : Nat)
    (junk : List Nat) (rest : List (List Nat)) (err : ClientError)
    (h : bus k = Except.error err) :
    segmentLoop d bus len (junk :: rest) i t k =
      ([segmentFrame d len i t junk], Outcome.failure (Error.client err)) := by
  rw [segmentLoop_cons_view, h]
  rfl

/-- One turn of the segment loop whose response has another command specifier than
`ServerSegmentDownload`. -/
theorem segmentLoop_cons_of_mismatch (d : Download) (bus : Bus) (len i t k : Nat)
    (junk : List Nat) (rest : List (List Nat)) (scs : Nat)
    (h : responseSpecifier (bus k) = some scs) (hne : scs ≠ ServerSegmentDownload) :
    segmentLoop d bus len (junk :: rest) i t k =
      ([segmentFrame d len i t junk], Outcome.failure (Error.invalidScs scs)) := by
  rw [segmentLoop_cons_view, (exchangeView_ok_some _ _).mpr h]
  simp only [hne, ne_eq, not_false_eq_true, if_true]

/-- The segment loop does not panic when every response has a data byte. -/
theorem segmentLoop_ne_panic (d : Download) (bus : Bus) (len : Nat)
    (h : ∀ k, exchangeView (bus k) ≠ Except.ok none) (junks : List (List Nat)) :
    ∀ i t k, (segmentLoop d bus len junks i t k).2 ≠ Outcome.panic := by
  induction junks with
  | nil => intro i t k; exact fun hp => Outcome.noConfusion hp
  | cons junk rest ih =>
    intro i t k
    rw [segmentLoop_cons_view]
    cases hv : exchangeView (bus k) with
    | error err => exact fun hp => Outcome.noConfusion hp
    | ok o =>
      cases o with
      | none => exact absurd hv (h k)
      | some scs =>
        by_cases hne : scs ≠ ServerSegmentDownload
        · simp only [hne, ne_eq, not_false_eq_true, if_true]
          exact fun hp => Outcome.noConfusion hp
        · simp only [hne, if_false]
          exact ih _ _ _

/-- The method `Do` does not panic when every response has a data byte. -/
theorem Do_ne_panic (abort : Nat) (d : Download) (bus : Bus)
    (h : ∀ k, exchangeView (bus k) ≠ Except.ok none) :
    (d.Do abort bus).2 ≠ Outcome.panic := by
  rw [Do_view]
  cases hv : exchangeView (bus 0) with
  | error err => exact fun hp => Outcome.noConfusion hp
  | ok o =>
    cases o with
    | none => exact absurd hv (h 0)
    | some scs =>
      by_cases h1 : scs = ServerInitiateDownload
      · by_cases h2 : int32 d.Data.length > 4
        · simp only [h1, h2, if_true]
          exact segmentLoop_ne_panic d bus _ h _ _ _ _
        · simp only [h1, h2, if_true, if_false]
          exact fun hp => Outcome.noConfusion hp
      · by_cases h2 : scs = abort
        · simp only [h1, if_false]
          rw [if_pos h2]
          exact fun hp => Outcome.noConfusion hp
        · simp only [h1, if_false]
          rw [if_neg h2]
          exact fun hp => Outcome.noConfusion hp

/-- The frames sent by the segment loop are segment frames of the chunks. -/
theorem mem_segmentLoop (d : Download) (bus : Bus) (len : Nat) (junks : List (List Nat)) :
    ∀ i t k f, f ∈ (segmentLoop d bus len junks i t k).1 →
      f ∈ segmentFrames d len junks i t := by
  induction junks with
  | nil => intro i t k f hf; exact hf
  | cons junk rest ih =>
    intro i t k f hf
    rw [segmentLoop_cons_view] at hf
    cases hv : exchangeView (bus k) with
    | error err =>
      rw [hv] at hf
      exact List.mem_cons.mpr (Or.inl (List.mem_singleton.mp hf))
    | ok o =>
      cases o with
      | none =>
        rw [hv] at hf
        exact List.mem_cons.mpr (Or.inl (List.mem_singleton.mp hf))
      | some scs =>
        rw [hv] at hf
        by_cases hne : scs ≠ ServerSegmentDownload
        · simp only [hne, ne_eq, not_false_eq_true, if_true] at hf
          exact List.mem_cons.mpr (Or.inl (List.mem_singleton.mp hf))
        · simp only [hne, if_false] at hf
          rcases List.mem_cons.mp hf with h1 | h1
          · exact List.mem_cons.mpr (Or.inl h1)
          · exact List.mem_cons.mpr (Or.inr (ih _ _ _ f h1))

/-- A frame sent by `Do` is the initiate frame or a segment frame of the chunks. -/
theorem mem_Do (abort : Nat) (d : Download) (bus : Bus) (f : Frame)
    (hf : f ∈ (d.Do abort bus).1) :
    f = d.GetRequest ∨
      f ∈ segmentFrames d (splitN d.Data 7).length (splitN d.Data 7) 0 0 := by
  rw [Do_view] at hf
  cases hv : exchangeView (bus 0) with
  | error err => rw [hv] at hf; exact Or.inl (List.mem_singleton.mp hf)
  | ok o =>
    cases o with
    | none => rw [hv] at hf; exact Or.inl (List.mem_singleton.mp hf)
    | some scs =>
      rw [hv] at hf
      by_cases h1 : scs = ServerInitiateDownload
      · by_cases h2 : int32 d.Data.length > 4
        · simp only [h1, h2, if_true] at hf
          rcases List.mem_cons.mp hf with h3 | h3
          · exact Or.inl h3
          · exact Or.inr (mem_segmentLoop d bus _ _ _ _ _ f h3)
        · simp only [h1, h2, if_true, if_false] at hf
          exact Or.inl (List.mem_singleton.mp hf)
      · by_cases h2 : scs = abort
        · simp only [h1, if_false] at hf
          rw [if_pos h2] at hf
          exact Or.inl (List.mem_singleton.mp hf)
        · simp only [h1, if_false] at hf
          rw [if_neg h2] at hf
          exact Or.inl (List.mem_singleton.mp hf)

/-- A segmented download whose initiate exchange is acknowledged sends the initiate frame and
enters the segment loop. -/
theorem Do_of_segmented (abort : Nat) (d : Download) (bus : Bus)
    (hseg : int32 d.Data.length > 4)
    (h0 : responseSpecifier (bus 0) = some ServerInitiateDownload) :
    d.Do abort bus =
      (d.GetRequest ::
          (segmentLoop d bus (splitN d.Data 7).length (splitN d.Data 7) 0 0 1).1,
        (segmentLoop d bus (splitN d.Data 7).length (splitN d.Data 7) 0 0 1).2) := by
  rw [Do_of_responseSpecifier abort d bus _ h0, if_pos rfl, if_pos hseg]

/-- The command specifier of a response made by `CANopenFrame`. -/
theorem responseSpecifier_CANopenFrame (c : can.Frame) :
    responseSpecifier (Except.ok (CANopenFrame c)) =
      some (c.Data 0 &&& TransferMaskCommandSpecifier) := by
  simp only [responseSpecifier, CANopenFrame_Data_cons]

/-- A response made by `CANopenFrame` always has a data byte. -/
theorem exchangeView_map_CANopenFrame (x : Except ClientError can.Frame) :
    exchangeView (x.map CANopenFrame) ≠ Except.ok none := by
  cases x with
  | error err => exact fun h => Except.noConfusion h
  | ok c =>
    show exchangeView (Except.ok (CANopenFrame c)) ≠ Except.ok none
    simp only [exchangeView, responseSpecifier_CANopenFrame]
    exact fun h => Option.noConfusion (Except.ok.inj h)

/-- A segment frame of the chunks of `splitN` has at most 8 data bytes. -/
theorem segmentFrames_Data_length (d : Download) (f : Frame)
    (hf : f ∈ segmentFrames d (splitN d.Data 7).length (splitN d.Data 7) 0 0) :
    f.Data.length ≤ 8 := by
  obtain ⟨cmd, junk, hj, hd⟩ := mem_segmentFrames _ _ _ _ _ f hf
  have := (splitN_length_le d.Data junk hj).2
  rw [hd, List.length_cons]
  omega

/-- The buses `ackBus` and `noisyAckBus` have the same views. -/
theorem exchangeView_noisyAckBus (k : Nat) :
    exchangeView (ackBus k) = exchangeView (noisyAckBus k) := by
  by_cases hk : k = 0
  · subst hk
    rfl
  · simp only [ackBus, noisyAckBus, hk, if_false]
    rfl

end sdo

/-! ## The frame model (claims C12, C13 and C19) -/

namespace canopen

/-- C12: for every CANopen frame `f` (its COB-ID a 16-bit value) with `n ≤ 8` data bytes,
`f.CANFrame()` is defined, its identifier is `f.CobID` with the RTR bit (bit 30) OR-ed in
exactly when `f.Rtr` is set and `f.CobID` otherwise, its length field is `n`, its data
bytes `0..n-1` are the bytes of `f.Data` and its data bytes `n..7` are zero. -/
theorem CANFrame_fields (f : Frame) (hc : f.CobID < 2 ^ 16) (hl : f.Data.length ≤ 8) :
    ∃ c, f.CANFrame = some c ∧
      c.ID = (if f.Rtr = true then f.CobID ||| can.MaskRtr else f.CobID) ∧
      c.ID.testBit 30 = f.Rtr ∧
      c.Length = f.Data.length ∧
      (∀ i : Fin 8, i.val < f.Data.length → f.Data[i.val]? = some (c.Data i)) ∧
      (∀ i : Fin 8, f.Data.length ≤ i.val → c.Data i = 0) := by
  have h32 : f.CobID % 2 ^ 32 = f.CobID := Nat.mod_eq_of_lt (lt_trans hc (by norm_num))
  have hbit := testBit_30_of_lt f.CobID hc
  have e : can.MaskRtr = 2 ^ 30 := by decide
  refine ⟨_, CANFrame_of_le f hl, ?_, ?_, rfl, ?_, ?_⟩
  · show (if f.Rtr = true then f.CobID % 2 ^ 32 ||| can.MaskRtr else f.CobID % 2 ^ 32) = _
    rw [h32]
  · show (if f.Rtr = true then f.CobID % 2 ^ 32 ||| can.MaskRtr
      else f.CobID % 2 ^ 32).testBit 30 = f.Rtr
    rw [h32]
    cases hr : f.Rtr
    · rw [if_neg (by decide)]
      exact hbit
    · rw [if_pos rfl, e, Nat.testBit_or, Nat.testBit_two_pow_self, Bool.or_true]
  · intro i hi
    show f.Data[i.val]? = some (f.Data.getD i.val 0)
    rw [List.getD_eq_getElem?_getD, List.getElem?_eq_getElem hi]
    rfl
  · intro i hi
    show f.Data.getD i.val 0 = 0
    rw [List.getD_eq_getElem?_getD, List.getElem?_eq_none hi]
    rfl

/-- C12, an instance: a remote-request frame of 3 data bytes. -/
theorem CANFrame_fields_witness :
    (0x181 : Nat) < 2 ^ 16 ∧ ([1, 2, 3] : List Nat).length ≤ 8 ∧
    ∃ c, (Frame.mk 0x181 true [1, 2, 3]).CANFrame = some c ∧
      c.ID = (if (Frame.mk 0x181 true [1, 2, 3]).Rtr = true
        then (0x181 : Nat) ||| can.MaskRtr else 0x181) ∧
      c.ID.testBit 30 = (Frame.mk 0x181 true [1, 2, 3]).Rtr ∧
      c.Length = ([1, 2, 3] : List Nat).length ∧
      (∀ i : Fin 8, i.val < ([1, 2, 3] : List Nat).length →
        ([1, 2, 3] : List Nat)[i.val]? = some (c.Data i)) ∧
      (∀ i : Fin 8, ([1, 2, 3] : List Nat).length ≤ i.val → c.Data i = 0) :=
  ⟨by decide, by decide, CANFrame_fields ⟨0x181, true, [1, 2, 3]⟩ (by decide) (by decide)⟩

/-- C13: for every frame `f`, `f.NodeID()` is `f.CobID & 0x7F`, the value of the COB-ID bits
0 to 6, at most 127, and `f.MessageType()` is `f.CobID & 0x780`; and when the COB-ID is
below `2 ^ 11`, `MessageType() | NodeID()` is the COB-ID and `MessageType() & NodeID()`
is 0. -/
theorem NodeID_MessageType_fields (f : Frame) :
    f.NodeID = f.CobID &&& 0x7F ∧ f.NodeID = f.CobID % 2 ^ 7 ∧ f.NodeID ≤ 127 ∧
    f.MessageType = f.CobID &&& 0x780 ∧
    (f.CobID < 2 ^ 11 →
      f.MessageType ||| f.NodeID = f.CobID ∧ f.MessageType &&& f.NodeID = 0) := by
  have hmod : f.CobID &&& 0x7F = f.CobID % 2 ^ 7 := Nat.and_pow_two_sub_one_eq_mod f.CobID 7
  have hlt : f.CobID % 2 ^ 7 < 2 ^ 7 := Nat.mod_lt _ (by norm_num)
  have hnode : f.NodeID = f.CobID &&& 0x7F := by
    show (f.CobID &&& 0x7F) % 2 ^ 8 = f.CobID &&& 0x7F
    rw [hmod]
    exact Nat.mod_eq_of_lt (lt_trans hlt (by norm_num))
  refine ⟨hnode, hnode.trans hmod, ?_, rfl, ?_⟩
  · rw [hnode, hmod]
    omega
  · intro hc
    rw [hnode]
    show (f.CobID &&& 0x780) ||| (f.CobID &&& 0x7F) = f.CobID ∧
      (f.CobID &&& 0x780) &&& (f.CobID &&& 0x7F) = 0
    constructor
    · rw [← Nat.and_or_distrib_left]
      exact and_MaskIDSff_of_lt f.CobID hc
    · apply Nat.eq_of_testBit_eq
      intro i
      have hz : ((0x780 : Nat) &&& 0x7F).testBit i = false := by
        rw [show (0x780 : Nat) &&& 0x7F = 0 by decide]
        exact Nat.zero_testBit i
      rw [Nat.testBit_and] at hz
      simp only [Nat.testBit_and, Nat.zero_testBit]
      cases hx : f.CobID.testBit i <;> simp [hz]

/-- C13, an instance: the COB-ID `0x181`. -/
theorem NodeID_MessageType_fields_witness :
    (0x181 : Nat) < 2 ^ 11 ∧
    (Frame.mk 0x181 false []).MessageType ||| (Frame.mk 0x181 false []).NodeID = 0x181 ∧
    (Frame.mk 0x181 false []).MessageType &&& (Frame.mk 0x181 false []).NodeID = 0 :=
  ⟨by decide, (NodeID_MessageType_fields ⟨0x181, false, []⟩).2.2.2.2 (by decide)⟩

/-- C19 fails on the data bytes 9 to 15: `Dump` pads with "0" only the bytes below 9, so the
bytes `09 0a 0f` are rendered "9", "a", "f", with one character instead of two.  The
list does have `1 + len(f.Data)` strings, the first being the COB-ID in hexadecimal. -/
theorem Dump_single_digit_bytes :
    (Frame.mk 0x181 false [0, 8, 9, 10, 15, 16, 255]).Dump
      = ["181", "00", "08", "9", "a", "f", "10", "ff"] ∧
    (Frame.mk 0x181 false [9]).Dump ≠ ["181", "09"] ∧
    (∀ d, d < 16 → 9 ≤ d →
      ((Frame.mk 0x181 false [d]).Dump)[1]?.map String.length = some 1) ∧
    (∀ f : Frame, f.Dump.length = 1 + f.Data.length) := by
  refine ⟨by decide, by decide, by decide, Dump_length⟩

end canopen

/-! ## The download transaction (claims C8, C11, C14 to C18 and C20) -/

namespace sdo

open canopen

/-- C8: for every payload of more than 4 bytes, when every exchange validates (the
initiate frame is put on the bus, which takes its CAN frame, and is answered with the
command specifier `0x60`, and every segment exchange is answered with `0x20`), `Do`
succeeds, the data of every segment frame it sends is one command byte followed by a chunk
of at most 7 bytes, and the chunks of the segment frames, concatenated in the order sent,
are the payload. -/
theorem Do_segments_carry_payload (abort : Nat) (d : Download) (bus : Bus)
    (h4 : 4 < d.Data.length)
    (hsend : d.GetRequest.CANFrame.isSome = true)
    (h0 : responseSpecifier (bus 0) = some ServerInitiateDownload)
    (hk : ∀ j, j < (splitN d.Data 7).length →
      responseSpecifier (bus (1 + j)) = some ServerSegmentDownload) :
    ∃ segs, d.Do abort bus = (d.GetRequest :: segs, Outcome.success) ∧
      (∀ f, f ∈ segs → ∃ cmd chunk, f.Data = cmd :: chunk ∧ chunk.length ≤ 7) ∧
      (segs.map (fun f => f.Data.tail)).flatten = d.Data := by
  have hseg : int32 d.Data.length > 4 := int32_gt_four_of_CANFrame d h4 hsend
  refine ⟨_, Do_of_acks abort d bus hseg h0 hk, ?_, ?_⟩
  · intro f hf
    obtain ⟨cmd, junk, hj, hd⟩ := mem_segmentFrames _ _ _ _ _ f hf
    exact ⟨cmd, junk, hd, (splitN_length_le d.Data junk hj).2⟩
  · rw [segmentFrames_map_tail, splitN_flatten]

/-- C8, an instance: the download of ten bytes. -/
theorem Do_segments_carry_payload_witness :
    4 < download10.Data.length ∧
    download10.GetRequest.CANFrame.isSome = true ∧
    responseSpecifier (ackBus 0) = some ServerInitiateDownload ∧
    (∀ j, j < (splitN download10.Data 7).length →
      responseSpecifier (ackBus (1 + j)) = some ServerSegmentDownload) ∧
    ∃ segs, download10.Do 0x80 ackBus = (download10.GetRequest :: segs, Outcome.success) ∧
      (∀ f, f ∈ segs → ∃ cmd chunk, f.Data = cmd :: chunk ∧ chunk.length ≤ 7) ∧
      (segs.map (fun f => f.Data.tail)).flatten = download10.Data :=
  ⟨by decide, by decide, by decide, fun j _ => responseSpecifier_ackBus_succ j,
    Do_segments_carry_payload 0x80 download10 ackBus (by decide) (by decide) (by decide)
      (fun j _ => responseSpecifier_ackBus_succ j)⟩

/-- C11 fails for a request COB-ID wider than 11 bits: `getFrame` and the loop of `Do` put
`download.RequestCobID` into the frame as it is, without the mask of `NewFrame`.  For the
request COB-ID `0xFE01` the initiate frame and both segment frames carry `0xFE01`, which
is neither below `2 ^ 11` nor equal to `0xFE01 & 0x7FF`. -/
theorem Do_wide_CobID :
    (∀ d : Download, d.GetRequest.CobID = d.RequestCobID ∧
      ∀ (len i t : Nat) (junk : List Nat),
        (segmentFrame d len i t junk).CobID = d.RequestCobID) ∧
    downloadWide.RequestCobID < 2 ^ 16 ∧
    downloadWide.GetRequest.CobID = 0xFE01 ∧
    ¬ downloadWide.GetRequest.CobID < 2 ^ 11 ∧
    downloadWide.GetRequest.CobID ≠ downloadWide.RequestCobID &&& 0x7FF ∧
    (downloadWide.Do 0x80 ackBus).1.map (fun f => f.CobID) = [0xFE01, 0xFE01, 0xFE01] := by
  refine ⟨fun d => ⟨getFrame_CobID d _ _, fun _ _ _ _ => rfl⟩, ?_⟩
  decide

/-- C14: for every download whose payload has at most 4 bytes, if the response to the
initiate frame has the command specifier `0x60`, `Do` returns success after sending
exactly one frame, the initiate frame. -/
theorem Do_expedited_success (abort : Nat) (d : Download) (bus : Bus)
    (h : d.Data.length ≤ 4)
    (h0 : responseSpecifier (bus 0) = some ServerInitiateDownload) :
    d.Do abort bus = ([d.GetRequest], Outcome.success) ∧ (d.Do abort bus).1.length = 1 := by
  have hseg : ¬ int32 d.Data.length > 4 := by
    rw [int32_of_lt _ (by omega)]
    omega
  rw [Do_of_not_segmented abort d bus hseg h0]
  exact ⟨rfl, rfl⟩

/-- C14, an instance: the download of `01 02`, acknowledged. -/
theorem Do_expedited_success_witness :
    download2.Data.length ≤ 4 ∧
    responseSpecifier (ackBus 0) = some ServerInitiateDownload ∧
    download2.Do 0x80 ackBus = ([download2.GetRequest], Outcome.success) ∧
    (download2.Do 0x80 ackBus).1.length = 1 :=
  ⟨by decide, by decide, Do_expedited_success 0x80 download2 ackBus (by decide) (by decide)⟩

/-- C15: in a download of more than 4 bytes whose initiate exchange validates (the
initiate frame is put on the bus, which takes its CAN frame, and is answered with the
command specifier `0x60`), over the `k` chunks: `Do` returns success if and only if each
of the `k` segment exchanges returns a response with the command specifier `0x20`; and if
exchange `j` is the first not to, `Do` has sent exactly the initiate frame and the
segments 0 to `j`, and it returns the error of the transaction engine unchanged when that
exchange failed there, and the error naming the specifier when the response has another
command specifier than `0x20`. -/
theorem Do_segmented_outcome (abort : Nat) (d : Download) (bus : Bus)
    (h4 : 4 < d.Data.length)
    (hsend : d.GetRequest.CANFrame.isSome = true)
    (h0 : responseSpecifier (bus 0) = some ServerInitiateDownload) :
    ((d.Do abort bus).2 = Outcome.success ↔
      ∀ j, j < (splitN d.Data 7).length →
        responseSpecifier (bus (1 + j)) = some ServerSegmentDownload) ∧
    ∀ j, j < (splitN d.Data 7).length →
      (∀ m, m < j → responseSpecifier (bus (1 + m)) = some ServerSegmentDownload) →
      ((segmentFrames d (splitN d.Data 7).length (splitN d.Data 7) 0 0).take (j + 1)).length
        = j + 1 ∧
      (∀ err, bus (1 + j) = Except.error err →
        d.Do abort bus =
          (d.GetRequest ::
            (segmentFrames d (splitN d.Data 7).length (splitN d.Data 7) 0 0).take (j + 1),
            Outcome.failure (Error.client err))) ∧
      (∀ scs, responseSpecifier (bus (1 + j)) = some scs → scs ≠ ServerSegmentDownload →
        d.Do abort bus =
          (d.GetRequest ::
            (segmentFrames d (splitN d.Data 7).length (splitN d.Data 7) 0 0).take (j + 1),
            Outcome.failure (Error.invalidScs scs))) := by
  have hseg : int32 d.Data.length > 4 := int32_gt_four_of_CANFrame d h4 hsend
  have hDo := Do_of_segmented abort d bus hseg h0
  constructor
  · rw [hDo]
    exact segmentLoop_success_iff d bus _ _ 0 0 1
  · intro j hj hprev
    refine ⟨?_, ?_, ?_⟩
    · rw [List.length_take, segmentFrames_length]
      omega
    · intro err herr
      rw [hDo, segmentLoop_stop d bus _ (Outcome.failure (Error.client err)) _ 0 0 1 j hj hprev
        (fun junk rest i0 t0 => segmentLoop_cons_of_error d bus _ i0 t0 (1 + j) junk rest err herr)]
    · intro scs hscs hne
      rw [hDo, segmentLoop_stop d bus _ (Outcome.failure (Error.invalidScs scs)) _ 0 0 1 j hj
        hprev (fun junk rest i0 t0 =>
          segmentLoop_cons_of_mismatch d bus _ i0 t0 (1 + j) junk rest scs hscs hne)]

/-- C15, an instance: the download of ten bytes, two chunks, whose second segment exchange
times out. -/
theorem Do_segmented_outcome_witness :
    4 < download10.Data.length ∧
    download10.GetRequest.CANFrame.isSome = true ∧
    responseSpecifier (timeoutBus 0) = some ServerInitiateDownload ∧
    (1 < (splitN download10.Data 7).length) ∧
    (∀ m, m < 1 → responseSpecifier (timeoutBus (1 + m)) = some ServerSegmentDownload) ∧
    timeoutBus (1 + 1) = Except.error ClientError.timeout ∧
    download10.Do 0x80 timeoutBus =
      (download10.GetRequest ::
        (segmentFrames download10 (splitN download10.Data 7).length
          (splitN download10.Data 7) 0 0).take (1 + 1),
        Outcome.failure (Error.client ClientError.timeout)) :=
  ⟨by decide, by decide, by decide, by decide, by decide, rfl,
    ((Do_segmented_outcome 0x80 download10 timeoutBus (by decide) (by decide)
      (by decide)).2 1 (by decide) (by decide)).2.1 ClientError.timeout rfl⟩

/-- C16: for two runs of `Do` on the same download, if the results of the corresponding
exchanges agree on the error of the transaction engine or on the command specifier of the
response (data byte 0 masked with `0xE0`), whatever the rest of the responses, `Do` sends
the same frames and returns the same result. -/
theorem Do_reads_only_specifier (abort : Nat) (d : Download) (bus1 bus2 : Bus)
    (h : ∀ k, exchangeView (bus1 k) = exchangeView (bus2 k)) :
    d.Do abort bus1 = d.Do abort bus2 :=
  Do_congr abort d bus1 bus2 h

/-- C16, an instance: the download of ten bytes on `ackBus` and on `noisyAckBus`, whose
responses differ in the toggle bit, the low bits, the Rtr flag and the other data bytes. -/
theorem Do_reads_only_specifier_witness :
    (∀ k, exchangeView (ackBus k) = exchangeView (noisyAckBus k)) ∧
    (ackBus 1).toOption ≠ (noisyAckBus 1).toOption ∧
    download10.Do 0x80 ackBus = download10.Do 0x80 noisyAckBus :=
  ⟨exchangeView_noisyAckBus, by decide,
    Do_reads_only_specifier 0x80 download10 ackBus noisyAckBus exchangeView_noisyAckBus⟩

/-- C17: for every CAN frame `c`, whatever its length field, `CANopenFrame(c).Data` has
exactly 8 bytes, so that its data byte 0 exists (it is `c.Data[0]`) and the response has a
command specifier; and on a bus whose responses are all made by `CANopenFrame`, `Do`
never panics on reading data byte 0. -/
theorem CANopenFrame_data_byte_zero :
    (∀ c : can.Frame,
      (CANopenFrame c).Data.length = 8 ∧
      (CANopenFrame c).Data[0]? = some (c.Data 0) ∧
      responseSpecifier (Except.ok (CANopenFrame c)) = some (c.Data 0 &&& 0xE0)) ∧
    (∀ (abort : Nat) (d : Download) (raw : Nat → Except ClientError can.Frame),
      (d.Do abort (fun k => (raw k).map CANopenFrame)).2 ≠ Outcome.panic) := by
  constructor
  · intro c
    refine ⟨List.length_ofFn c.Data, ?_, responseSpecifier_CANopenFrame c⟩
    rw [CANopenFrame_Data_cons]
    rfl
  · intro abort d raw
    exact Do_ne_panic abort d _ (fun k => exchangeView_map_CANopenFrame (raw k))

/-- C18, as amended: `Frame.CANFrame` is defined exactly on the frames of at most 8 data
bytes; and for every download whose payload is shorter than `2 ^ 31` bytes, the initiate
frame has 8 data bytes, every segment frame has at most 8, and `CANFrame` is defined on
every frame `Do` sends. -/
theorem CANFrame_defined_on_download_frames (abort : Nat) (d : Download) (bus : Bus)
    (h31 : d.Data.length < 2 ^ 31) :
    (∀ f : Frame, f.CANFrame.isSome = true ↔ f.Data.length ≤ 8) ∧
    d.GetRequest.Data.length = 8 ∧
    (∀ f, f ∈ segmentFrames d (splitN d.Data 7).length (splitN d.Data 7) 0 0 →
      f.Data.length ≤ 8) ∧
    (∀ f, f ∈ (d.Do abort bus).1 → f.Data.length ≤ 8 ∧ f.CANFrame.isSome = true) := by
  refine ⟨CANFrame_isSome_iff, GetRequest_length d h31, segmentFrames_Data_length d, ?_⟩
  intro f hf
  have hle : f.Data.length ≤ 8 := by
    rcases mem_Do abort d bus f hf with h | h
    · rw [h, GetRequest_length d h31]
    · exact segmentFrames_Data_length d f h
  exact ⟨hle, (CANFrame_isSome_iff f).mpr hle⟩

/-- C18, an instance: the download of ten bytes. -/
theorem CANFrame_defined_on_download_frames_witness :
    download10.Data.length < 2 ^ 31 ∧
    (∀ f : Frame, f.CANFrame.isSome = true ↔ f.Data.length ≤ 8) ∧
    download10.GetRequest.Data.length = 8 ∧
    (∀ f, f ∈ segmentFrames download10 (splitN download10.Data 7).length
        (splitN download10.Data 7) 0 0 → f.Data.length ≤ 8) ∧
    (∀ f, f ∈ (download10.Do 0x80 ackBus).1 →
      f.Data.length ≤ 8 ∧ f.CANFrame.isSome = true) :=
  ⟨by decide, CANFrame_defined_on_download_frames 0x80 download10 ackBus (by decide)⟩

/-- C18 fails for a payload of `2 ^ 31` bytes: its length wraps to a negative `int32`, the
initiate frame has `2 ^ 31 + 4` data bytes, and `CANFrame` is not defined on it. -/
theorem CANFrame_payload_two_pow_31_undefined :
    (Download.mk ⟨⟨0x40, 0x60⟩, 1⟩ (List.replicate (2 ^ 31) 0) 0x601 0x581).GetRequest.Data.length
      = 2 ^ 31 + 4 ∧
    (Download.mk ⟨⟨0x40, 0x60⟩, 1⟩ (List.replicate (2 ^ 31) 0) 0x601 0x581).GetRequest.CANFrame
      = none := by
  have h := (getFrame_length_of_wrapped
    ⟨⟨⟨0x40, 0x60⟩, 1⟩, List.replicate (2 ^ 31) 0, 0x601, 0x581⟩
    TransferExpedited TransferSizeIndicated (List.length_replicate _ _)).2
  refine ⟨h, CANFrame_eq_none _ ?_⟩
  rw [Download.GetRequest, h]
  norm_num

/-- C20: for every object index and COB-IDs, the initiate frame for the empty payload is
equal, command byte included, to the one for the payload `00 00 00 00`; whereas for two
payloads of different lengths between 1 and 4 the command bytes differ. -/
theorem getFrame_empty_payload_like_four_zeros :
    (∀ (oi : ObjectIndex) (req resp : Nat),
      (Download.mk oi [] req resp).GetRequest =
        (Download.mk oi [0, 0, 0, 0] req resp).GetRequest) ∧
    (∀ d1 d2 : Download, 1 ≤ d1.Data.length → d1.Data.length ≤ 4 →
      1 ≤ d2.Data.length → d2.Data.length ≤ 4 → d1.Data.length ≠ d2.Data.length →
      d1.GetRequest.Data.head? ≠ d2.GetRequest.Data.head?) := by
  constructor
  · intro oi req resp
    have hc : (0x20 ||| 0x02 ||| 0x01 ||| (((4 - ([] : List Nat).length) <<< 2) &&& 0x0C)) =
        (0x20 ||| 0x02 ||| 0x01 ||| (((4 - ([0, 0, 0, 0] : List Nat).length) <<< 2) &&& 0x0C)) := by
      decide
    rw [GetRequest_of_le_four ⟨oi, [], req, resp⟩ (Nat.zero_le 4),
      GetRequest_of_le_four ⟨oi, [0, 0, 0, 0], req, resp⟩ (Nat.le_refl 4)]
    show Frame.mk req false (_ :: oi.Index.B0 :: oi.Index.B1 :: oi.SubIndex :: [0, 0, 0, 0]) =
      Frame.mk req false (_ :: oi.Index.B0 :: oi.Index.B1 :: oi.SubIndex :: [0, 0, 0, 0])
    rw [hc]
  · intro d1 d2 h1 h2 h3 h4 hne
    rw [GetRequest_of_le_four d1 h2, GetRequest_of_le_four d2 h4]
    intro h
    exact command_expedited_ne _ _ h1 h2 h3 h4 hne (Option.some.inj h)

/-- C20, an instance: payloads of 2 and of 3 bytes. -/
theorem getFrame_empty_payload_like_four_zeros_witness :
    1 ≤ download2.Data.length ∧ download2.Data.length ≤ 4 ∧
    1 ≤ ([7, 7, 7] : List Nat).length ∧ ([7, 7, 7] : List Nat).length ≤ 4 ∧
    download2.Data.length ≠ ([7, 7, 7] : List Nat).length ∧
    download2.GetRequest.Data.head? ≠
      (Download.mk ⟨⟨0x40, 0x60⟩, 1⟩ [7, 7, 7] 0x601 0x581).GetRequest.Data.head? :=
  ⟨by decide, by decide, by decide, by decide, by decide,
    getFrame_empty_payload_like_four_zeros.2 download2
      ⟨⟨⟨0x40, 0x60⟩, 1⟩, [7, 7, 7], 0x601, 0x581⟩
      (by decide) (by decide) (by decide) (by decide) (by decide)⟩

end sdo
